import Mathlib

/-!
Verification of the XML-RPC codec (message model, streaming reader/writer,
reflective mapper) against its natural-language specification.

The Go source is shallowly embedded:
* machine integers are modelled as `Int` (the decimal print/parse used by the
  codec is width-agnostic; widths are tracked as tags on payloads because the
  dynamic type of a payload matters for reflection);
* `float64`/`float32` payloads are modelled by `GoFloat`: a sign, an exact
  rational magnitude, infinities and NaN.  The codec only ever formats floats
  with `%f` (fixed-point, 6 digits) and parses decimal text, both of which act
  on the decimally-representable value, so the rational abstraction matches the
  code on every value the theorems mention;
* `time.Time` is modelled by its broken-down fields plus nanoseconds and a
  fixed zone offset in minutes (`GoTime`);
* errors are `GoError`: wire faults, `*xml.SyntaxError`s, and plain errors
  (`fmt.Errorf`, `*time.ParseError`, base64 errors).  Message texts of plain
  errors are reproduced where a claim depends on them and abbreviated (with a
  comment) where no claim does;
* Go maps are not embedded: their iteration order is random, so no determinate
  function models `makeValue` on a map, and none of the settled statements
  needs one.
-/

set_option maxHeartbeats 1000000
set_option maxRecDepth 16384

namespace XmlRpc

/-! ### Integer and float widths (dynamic types of payloads) -/

/-- The integer widths accepted by `makeValue`'s type switch
(`int, int64, int32, int16, uint, uint64, uint32, uint16, uint8`). -/
inductive IntW where
  | iInt | i64 | i32 | i16 | iU | iU64 | iU32 | iU16 | iU8
deriving DecidableEq, Repr

/-- Float widths (`float64`, `float32`). -/
inductive FloatW where
  | f64 | f32
deriving DecidableEq, Repr

/-- Model of a Go floating-point value: sign + exact decimal magnitude,
or an infinity, or NaN.  `%f` formatting and decimal parsing act on the
decimal value, which this carrier represents exactly. -/
inductive GoFloat where
  | finite (neg : Bool) (mag : ℚ)
  | inf (neg : Bool)
  | nan
deriving DecidableEq

/-- Model of `time.Time`: broken-down wall-clock fields, nanoseconds and the
zone offset in minutes (0 for UTC).  `time.Date` normalises its arguments, so
a wf value has calendar-valid fields. -/
structure GoTime where
  year : Nat
  month : Nat
  day : Nat
  hour : Nat
  minute : Nat
  second : Nat
  nano : Nat
  offsetMin : Int
deriving DecidableEq, Repr

/-! ### Fault taxonomy (fault.go) -/

/-- `Fault` — an XML-RPC fault: code and message, also usable as an error. -/
structure Fault where
  code : Int
  message : String
deriving DecidableEq, Repr

def malformedInputCode : Int := -32700
def unsupportedEncodingCode : Int := -32701
def invalidCharacterCode : Int := -32702
def invalidRequestCode : Int := -32600
def methodNotFoundCode : Int := -32601
def invalidParamsCode : Int := -32602
def internalErrorCode : Int := -32603

/-- `faultCode.String()` — the default message table. -/
def faultDefaultMessage (c : Int) : String :=
  if c = malformedInputCode then "malformed input"
  else if c = unsupportedEncodingCode then "unsupported encoding"
  else if c = invalidCharacterCode then "invalid character for encoding"
  else if c = invalidRequestCode then "invalid xml-rpc. not conforming to spec"
  else if c = methodNotFoundCode then "requested method not found"
  else if c = invalidParamsCode then "invalid method parameters"
  else if c = internalErrorCode then "internal xml-rpc error"
  else ""

/-- `faultCode.New(format, v...)` — each call site's `fmt.Sprintf` is expanded
to the concatenation it produces; an empty formatted message falls back to the
default message. -/
def faultNew (c : Int) (s : String) : Fault :=
  ⟨c, if s = "" then faultDefaultMessage c else s⟩

/-! ### The RPC value model (message.go) -/

/-- `valueKind` — the tag of the tagged union `rpcValue`. -/
inductive ValueKind where
  | nilKind | booleanKind | intKind | doubleKind | dateTimeKind
  | base64Kind | stringKind | arrayKind | structKind
deriving DecidableEq, Repr

/-- `rpcValue` — kind plus payload, fused into one tagged union.  Integer and
float payloads carry the width of the native value they hold (the dynamic type
of the `interface{}` payload).  A `nilKind` value's payload is never read by
the code, so it is not carried. -/
inductive RpcValue where
  | nil
  | boolean (b : Bool)
  | int (w : IntW) (n : Int)
  | double (w : FloatW) (f : GoFloat)
  | dateTime (t : GoTime)
  | base64 (bs : List Nat)
  | str (s : String)
  | array (xs : List RpcValue)
  | strct (ms : List (String × RpcValue))

/-- The kind tag of a value. -/
def RpcValue.kind : RpcValue → ValueKind
  | .nil => .nilKind
  | .boolean _ => .booleanKind
  | .int _ _ => .intKind
  | .double _ _ => .doubleKind
  | .dateTime _ => .dateTimeKind
  | .base64 _ => .base64Kind
  | .str _ => .stringKind
  | .array _ => .arrayKind
  | .strct _ => .structKind

/-- `rpcValue.isEmpty` — nil, zero-length array or zero-length struct. -/
def RpcValue.isEmpty : RpcValue → Bool
  | .nil => true
  | .array xs => xs.isEmpty
  | .strct ms => ms.isEmpty
  | _ => false

/-- `methodResponse` — params plus the fault slot. -/
structure MethodResponse where
  params : List RpcValue
  fault : RpcValue

/-- `rpc.Fault.isEmpty()` as both call sites (writer.go line 145 and
codec.go line 100) resolve it: `rpc.Fault` selects the `Fault` field (of type
`rpcValue`) promoted from the embedded `rpcFault`, so the method invoked is
`rpcValue.isEmpty` (message.go line 347) on the fault slot.  The method
`rpcFault.isEmpty` declared at message.go line 362 is selected by no call
site (it would only be reached as `rpc.isEmpty()`, which nothing writes). -/
def faultIsEmpty (r : MethodResponse) : Bool :=
  r.fault.isEmpty

/-! ### Decimal rendering helpers (fmt.Sprint / %f) -/

/-- One decimal digit as a character. -/
def digitChar (d : Nat) : Char := Char.ofNat (48 + d)

/-- Decimal digits of a natural number (most significant first). -/
def natChars (n : Nat) : List Char :=
  if _h : n < 10 then [digitChar n]
  else natChars (n / 10) ++ [digitChar (n % 10)]
termination_by n
decreasing_by exact Nat.div_lt_self (by omega) (by omega)

/-- `fmt.Sprint` of an integer value: decimal, `-`-signed. -/
def intChars (n : Int) : List Char :=
  if n < 0 then '-' :: natChars n.natAbs else natChars n.natAbs

/-- Left-pad with zeros to the given width. -/
def padChars (w : Nat) (cs : List Char) : List Char :=
  List.replicate (w - cs.length) '0' ++ cs

/-- Round to the nearest integer, ties to even (the rounding `%f` applies at
the sixth decimal). -/
def roundHalfEven (x : ℚ) : Int :=
  let n := ⌊x⌋
  if x - n < 1/2 then n
  else if 1/2 < x - n then n + 1
  else if n % 2 = 0 then n else n + 1

/-- `fmt.Sprintf("%f", v)` — fixed-point with six fractional digits;
infinities print as `+Inf`/`-Inf`, NaN as `NaN`. -/
def sprintF6 : GoFloat → List Char
  | .nan => "NaN".data
  | .inf neg => if neg then "-Inf".data else "+Inf".data
  | .finite neg mag =>
      let N : Nat := (roundHalfEven (mag * 1000000)).toNat
      (if neg then ['-'] else []) ++
        natChars (N / 1000000) ++ '.' :: padChars 6 (natChars (N % 1000000))

/-- `strings.TrimRight(d, "0")`. -/
def trimRightZeros (cs : List Char) : List Char :=
  (cs.reverse.dropWhile (· = '0')).reverse

/-- The double encoding policy of `writeValue` (writer.go lines 172-177):
`%f`, trailing zeros trimmed, a terminal zero restored if the result would be
empty or end in the bare decimal point. -/
def doubleChars (f : GoFloat) : List Char :=
  let d := trimRightZeros (sprintF6 f)
  if d.length = 0 ∨ d.getLast? = some '.' then d ++ ['0'] else d

/-! ### String escaping (xml.EscapeText) and the fast path -/

def quoteChar : Char := Char.ofNat 34
def aposChar : Char := Char.ofNat 39

/-- `xml.EscapeText` on one character.  (Invalid UTF-8 replacement does not
arise: Lean strings are valid unicode.) -/
def escapeChar (c : Char) : List Char :=
  if c = quoteChar then "&#34;".data
  else if c = aposChar then "&#39;".data
  else if c = '&' then "&amp;".data
  else if c = '<' then "&lt;".data
  else if c = '>' then "&gt;".data
  else if c = '\t' then "&#x9;".data
  else if c = '\n' then "&#xA;".data
  else if c = '\r' then "&#xD;".data
  else [c]

/-- `xml.EscapeText` over a whole string. -/
def escapeChars (cs : List Char) : List Char :=
  (cs.map escapeChar).flatten

/-- The five characters of `strings.IndexAny(s, "<>&'\"")` that force the
escaped path. -/
def needsEscapeChar (c : Char) : Bool :=
  c = '<' ∨ c = '>' ∨ c = '&' ∨ c = aposChar ∨ c = quoteChar

def needsEscape (cs : List Char) : Bool := cs.any needsEscapeChar

/-! ### base64 (encoding/base64 StdEncoding) -/

/-- The standard base64 alphabet. -/
def b64Char (i : Nat) : Char :=
  if i < 26 then Char.ofNat (65 + i)
  else if i < 52 then Char.ofNat (97 + (i - 26))
  else if i < 62 then Char.ofNat (48 + (i - 52))
  else if i = 62 then '+' else '/'

/-- `base64.StdEncoding.EncodeToString` (bytes are `Nat`s below 256). -/
def base64Chars : List Nat → List Char
  | [] => []
  | [a] => [b64Char (a / 4), b64Char (a % 4 * 16), '=', '=']
  | [a, b] => [b64Char (a / 4), b64Char (a % 4 * 16 + b / 16), b64Char (b % 16 * 4), '=']
  | a :: b :: c :: rest =>
      b64Char (a / 4) :: b64Char (a % 4 * 16 + b / 16) ::
        b64Char (b % 16 * 4 + c / 64) :: b64Char (c % 64) :: base64Chars rest

/-! ### dateTime formatting (iso8601 = "20060102T15:04:05") -/

/-- `t.AppendFormat(b, iso8601)` — compact ISO-8601, no zone, no sub-second. -/
def formatISO8601 (t : GoTime) : List Char :=
  padChars 4 (natChars t.year) ++ padChars 2 (natChars t.month) ++
    padChars 2 (natChars t.day) ++ 'T' ::
    (padChars 2 (natChars t.hour) ++ ':' ::
      (padChars 2 (natChars t.minute) ++ ':' :: padChars 2 (natChars t.second)))

/-! ### The encoder (writer.go writeValue / writeResponse / writeCall) -/

/-- `boolEncodeMap` — booleans encode as "1"/"0". -/
def boolEncodeMap (b : Bool) : String := if b then "1" else "0"

mutual

/-- `writeValue` — wraps every value in `<value>…</value>` and emits the
per-kind textual form (writer.go lines 164-225).  The nil kind (the `default`
branch of the switch) emits nothing inside the wrapper. -/
def writeValue : RpcValue → String
  | .nil => "<value>" ++ "</value>"
  | .boolean b => "<value><boolean>" ++ boolEncodeMap b ++ "</boolean></value>"
  | .int _ n => "<value><int>" ++ String.mk (intChars n) ++ "</int></value>"
  | .double _ f => "<value><double>" ++ String.mk (doubleChars f) ++ "</double></value>"
  | .str s =>
      if needsEscape s.data then
        "<value><string>" ++ String.mk (escapeChars s.data) ++ "</string></value>"
      else "<value><string>" ++ s ++ "</string></value>"
  | .dateTime t =>
      "<value><dateTime.iso8601>" ++ String.mk (formatISO8601 t) ++ "</dateTime.iso8601></value>"
  | .base64 bs => "<value><base64>" ++ String.mk (base64Chars bs) ++ "</base64></value>"
  | .array xs => "<value><array><data>" ++ writeValueList xs ++ "</data></array></value>"
  | .strct ms => "<value><struct>" ++ writeMembers ms ++ "</struct></value>"

/-- The `array` body: each element's `writeValue`, in order. -/
def writeValueList : List RpcValue → String
  | [] => ""
  | v :: vs => writeValue v ++ writeValueList vs

/-- The `struct` body: `<member><name>…</name>…</member>` per entry, in stored
order; the name is emitted raw. -/
def writeMembers : List (String × RpcValue) → String
  | [] => ""
  | (n, v) :: ms => "<member><name>" ++ n ++ "</name>" ++ writeValue v ++ "</member>" ++ writeMembers ms

end

/-- `xml.Header` — the declaration emitted before every call/response. -/
def xmlHeader : String := "<?xml version=\"1.0\" encoding=\"UTF-8\"?>\n"

/-- `<param><value>…</value></param>` sequence of `writeCall`/`writeResponse`. -/
def writeParamList : List RpcValue → String
  | [] => ""
  | v :: vs => "<param>" ++ writeValue v ++ "</param>" ++ writeParamList vs

/-- `writeResponse` (writer.go lines 140-162): header, then the fault branch
when `!rpc.Fault.isEmpty()` (`rpcValue.isEmpty` of the fault slot, via field
promotion — see `faultIsEmpty`), else the params branch. -/
def writeResponse (rpc : MethodResponse) : String :=
  xmlHeader ++ "<methodResponse>" ++
    (if ¬ faultIsEmpty rpc then "<fault>" ++ writeValue rpc.fault ++ "</fault>"
     else "<params>" ++ writeParamList rpc.params ++ "</params>") ++
    "</methodResponse>"

/-- `writeCall` (writer.go lines 118-138). -/
def writeCall (method : String) (params : List RpcValue) : String :=
  xmlHeader ++ "<methodCall><methodName>" ++ method ++ "</methodName><params>" ++
    writeParamList params ++ "</params></methodCall>"

/-! ### Native Go types and values (the reflective mapper's domain)

A record field is a `(name, rpc-tag, type)` triple; a record value additionally
carries the field's current value.  `[]byte` is `tSlice (tInt .iU8)`, exactly
as in Go where its reflect kind is a slice of `uint8`. -/

inductive GoType where
  | tBool
  | tInt (w : IntW)
  | tFloat (w : FloatW)
  | tString
  | tTime
  | tSlice (elem : GoType)
  | tRecord (fields : List (String × Option String × GoType))
  | tIface

/-- A native Go value, carrying the type information that `reflect` exposes.
`ptr` is a pointer (none = nil pointer); `raw` is an `interface{}` cell holding
the dynamic payload of an `rpcValue` (its Go type is the payload's type, or
`[]rpcValue` for an array payload) — it arises only from projections into
interface-typed destinations. -/
inductive GoValue where
  | nilv
  | bool (b : Bool)
  | int (w : IntW) (n : Int)
  | float (w : FloatW) (f : GoFloat)
  | str (s : String)
  | time (t : GoTime)
  | slice (elem : GoType) (xs : List GoValue)
  | record (fields : List (String × Option String × GoType × GoValue))
  | ptr (inner : Option GoValue)
  | raw (rv : RpcValue)

mutual

/-- Structural equality test on `GoType` (models `reflect.Type` equality,
which includes struct tags). -/
def GoType.beq : GoType → GoType → Bool
  | .tBool, .tBool => true
  | .tInt w, .tInt w2 => w == w2
  | .tFloat w, .tFloat w2 => w == w2
  | .tString, .tString => true
  | .tTime, .tTime => true
  | .tSlice a, .tSlice b => a.beq b
  | .tRecord fs, .tRecord gs => fieldTysBeq fs gs
  | .tIface, .tIface => true
  | _, _ => false

def fieldTysBeq : List (String × Option String × GoType) → List (String × Option String × GoType) → Bool
  | [], [] => true
  | (n, tag, ty) :: fs, (n2, tag2, ty2) :: gs =>
      n == n2 && tag == tag2 && ty.beq ty2 && fieldTysBeq fs gs
  | _, _ => false

end

def GoType.isIface : GoType → Bool
  | .tIface => true
  | _ => false

/-- `reflect.Kind.String()` for the embedded types (`time.Time` and records
have kind `struct`). -/
def kindString : GoType → String
  | .tBool => "bool"
  | .tInt .iInt => "int"
  | .tInt .i64 => "int64"
  | .tInt .i32 => "int32"
  | .tInt .i16 => "int16"
  | .tInt .iU => "uint"
  | .tInt .iU64 => "uint64"
  | .tInt .iU32 => "uint32"
  | .tInt .iU16 => "uint16"
  | .tInt .iU8 => "uint8"
  | .tFloat .f64 => "float64"
  | .tFloat .f32 => "float32"
  | .tString => "string"
  | .tTime => "struct"
  | .tSlice _ => "slice"
  | .tRecord _ => "struct"
  | .tIface => "interface"

/-- `reflect.Type.String()`, approximated: record type names are not carried
by the embedding, and no settled statement depends on this text. -/
def typeString : GoType → String
  | .tBool => "bool"
  | .tInt w => kindString (.tInt w)
  | .tFloat w => kindString (.tFloat w)
  | .tString => "string"
  | .tTime => "time.Time"
  | .tSlice e => "[]" ++ typeString e
  | .tRecord _ => "struct {...}"
  | .tIface => "interface {}"

mutual

/-- The zero value of a type (`reflect.MakeSlice` elements, pointer targets,
record fields).  The Go nil slice and the empty slice are identified, matching
the spec's empty-collection equivalence. -/
def zeroOf : GoType → GoValue
  | .tBool => .bool false
  | .tInt w => .int w 0
  | .tFloat w => .float w (.finite false 0)
  | .tString => .str ""
  | .tTime => .time ⟨1, 1, 1, 0, 0, 0, 0, 0⟩
  | .tSlice e => .slice e []
  | .tRecord fs => .record (zeroFields fs)
  | .tIface => .nilv

def zeroFields : List (String × Option String × GoType) → List (String × Option String × GoType × GoValue)
  | [] => []
  | (n, tag, ty) :: fs => (n, tag, ty, zeroOf ty) :: zeroFields fs

end

/-- Strip values from a record's fields, giving its `reflect.Type` shape. -/
def stripVals (fs : List (String × Option String × GoType × GoValue)) :
    List (String × Option String × GoType) :=
  fs.map fun f => (f.1, f.2.1, f.2.2.1)

/-- `reflect.TypeOf` of a value reaching the final `Set` (nil has no type;
pointers and raw codec payloads never reach a typed comparison in the
embedded paths). -/
def goTypeOfVal : GoValue → Option GoType
  | .nilv => none
  | .bool _ => some .tBool
  | .int w _ => some (.tInt w)
  | .float w _ => some (.tFloat w)
  | .str _ => some .tString
  | .time _ => some .tTime
  | .slice e _ => some (.tSlice e)
  | .record fs => some (.tRecord (stripVals fs))
  | .ptr _ => none
  | .raw _ => none

/-! ### makeValue (message.go lines 98-198) -/

/-- Whether a struct field is exported (Go: first rune upper case; ASCII
suffices for the identifiers the claims touch). -/
def isExported (name : String) : Bool := name.front.isUpper

/-- Extract a byte from a `[]byte` element (well-typed elements are
`.int .iU8 n` with `0 ≤ n < 256`). -/
def goByte : GoValue → Nat
  | .int _ n => n.toNat
  | _ => 0

/-- Classification of an `interface{}` cell holding a codec payload (`raw`).
A primitive payload classifies as itself; array/struct payloads are slices of
the codec's own struct types, whose traversal reaches unexported fields and
panics (`reflect.Value.Interface` on an unexported field), modelled as `none`.
No settled statement exercises this path. -/
def classifyRaw : RpcValue → Option RpcValue
  | .array _ => none
  | .strct _ => none
  | rv => some rv

mutual

/-- `makeValue` — classify a native value into an `rpcValue`.  `none` models a
reflect panic: dereferencing a nil pointer (`reflect.Indirect` yields the zero
`Value`, whose `Interface()` panics) or touching an unexported record field. -/
def makeValue : GoValue → Option RpcValue
  | .nilv => some RpcValue.nil
  | .ptr none => none
  | .ptr (some v) => classifyValue v
  | .bool b => some (.boolean b)
  | .int w n => some (.int w n)
  | .float w f => some (.double w f)
  | .str s => some (.str s)
  | .time t => some (.dateTime t)
  | .slice t xs => classifySlice t xs
  | .record fs => classifyRecord fs
  | .raw rv => classifyRaw rv

/-- Classification after the single pointer dereference: a pointer is NOT
followed again (reflect kind `Ptr` matches no case of either switch, leaving
the nil kind with the pointer as payload — payload of a nil-kind value is
never read, so it is not carried). -/
def classifyValue : GoValue → Option RpcValue
  | .nilv => some RpcValue.nil
  | .ptr _ => some RpcValue.nil
  | .bool b => some (.boolean b)
  | .int w n => some (.int w n)
  | .float w f => some (.double w f)
  | .str s => some (.str s)
  | .time t => some (.dateTime t)
  | .slice t xs => classifySlice t xs
  | .record fs => classifyRecord fs
  | .raw rv => classifyRaw rv

/-- The slice/array branch: `[]byte` (checked first, by the type switch) maps
to base64; any other slice maps to an array, recursing per element. -/
def classifySlice (t : GoType) (xs : List GoValue) : Option RpcValue :=
  match t with
  | .tInt .iU8 => some (.base64 (xs.map goByte))
  | _ => (makeValueList xs).map RpcValue.array

def makeValueList : List GoValue → Option (List RpcValue)
  | [] => some []
  | v :: vs => do
      let rv ← makeValue v
      let rest ← makeValueList vs
      pure (rv :: rest)

/-- The record branch: every field is included, in declaration order; the
entry name is the field name unless an `rpc` tag overrides it.  Reading an
unexported field's value panics (`none`). -/
def classifyRecord (fs : List (String × Option String × GoType × GoValue)) : Option RpcValue :=
  (makeMembers fs).map RpcValue.strct

def makeMembers : List (String × Option String × GoType × GoValue) → Option (List (String × RpcValue))
  | [] => some []
  | (n, tag, _, v) :: fs => do
      if isExported n then
        let rv ← makeValue v
        let rest ← makeMembers fs
        pure ((tag.getD n, rv) :: rest)
      else none

end

/-- `makeParams` of a single argument, as used by `makeResponse`. -/
def faultToGo (f : Fault) : GoValue :=
  .record [("Code", some "faultCode", .tInt .iInt, .int .iInt f.code),
           ("Message", some "faultString", .tString, .str f.message)]

/-- The argument of `writeResponse`: a `Fault`, some other error, or a plain
payload (the type switch of `makeResponse`). -/
inductive ResponseArg where
  | fault (f : Fault)
  | err (msg : String)
  | value (v : GoValue)

/-- `makeResponse` (message.go lines 72-83). -/
def makeResponse : ResponseArg → Option MethodResponse
  | .fault f => (makeValue (faultToGo f)).map fun rv => ⟨[], rv⟩
  | .err m => (makeValue (faultToGo (faultNew internalErrorCode m))).map fun rv => ⟨[], rv⟩
  | .value v => (makeValue v).map fun rv => ⟨[rv], RpcValue.nil⟩

/-! ### writeTo — projection of a decoded value into a native slot
(message.go lines 200-321) -/

/-- The Go payload a primitive `rpcValue` stores (the `interface{}` held in
`r.value`); for container payloads this is the codec-internal slice itself. -/
def rpcPayloadGo : RpcValue → GoValue
  | .nil => .nilv
  | .boolean b => .bool b
  | .int w n => .int w n
  | .double w f => .float w f
  | .str s => .str s
  | .dateTime t => .time t
  | .base64 bs => .slice (.tInt .iU8) (bs.map fun b => .int .iU8 (Int.ofNat b))
  | .array xs => .raw (.array xs)
  | .strct ms => .raw (.strct ms)

/-- The final `if val != nil { typecheck; refVal.Set(val) }` step: the stored
value must have exactly the destination's type unless the destination is
`interface{}`.  (`val` is never the untyped nil on the paths that reach this
step: the empty kinds return earlier.) -/
def setVal (t : GoType) (val : GoValue) : Except Fault GoValue :=
  let mismatch :=
    match goTypeOfVal val with
    | some tv =>
        if tv.beq t = false ∧ t.isIface = false then
          some (typeString tv)
        else none
    | none => if t.isIface = false then some "[]xml.rpcValue" else none
  match mismatch with
  | some tvs =>
      .error (faultNew internalErrorCode ("type mismatch: " ++ tvs ++ " != " ++ typeString t))
  | none => .ok val

/-- The key under which a field is registered in `nameMap`: its `rpc` tag if
present, else its own name. -/
def fieldKey (f : String × Option String × GoType × GoValue) : String :=
  f.2.1.getD f.1

/-- `nameMap[memberName]` — the map is built by inserting every field in
order (later keys overwrite), and a missing key yields Go's zero string. -/
def nameMapLookup (fields : List (String × Option String × GoType × GoValue))
    (k : String) : String :=
  match fields.reverse.find? (fun f => fieldKey f = k) with
  | some f => f.1
  | none => ""

/-- `refVal.FieldByName(name)` (no Go field is named "", so the empty name
finds nothing). -/
def findField (fields : List (String × Option String × GoType × GoValue))
    (name : String) : Option (String × Option String × GoType × GoValue) :=
  fields.find? (fun f => f.1 = name)

/-- Replace the (first) field of the given name. -/
def setField : List (String × Option String × GoType × GoValue) → String → GoValue →
    List (String × Option String × GoType × GoValue)
  | [], _, _ => []
  | (n, tag, ty, v) :: fs, name, nv =>
      if n = name then (n, tag, ty, nv) :: fs
      else (n, tag, ty, v) :: setField fs name nv

def GoValue.sliceElems : GoValue → List GoValue
  | .slice _ es => es
  | _ => []

/-- Projecting struct members into a `time.Time` destination (reflect kind
`struct`, fields `wall uint64`, `ext int64`, `loc *Location`, all unexported):
an unknown member name maps to the empty field name (unknown-field error), a
known unexported name passes the lookup but fails the `CanSet` check as soon
as its value is non-empty; empty member values are skipped as always. -/
def writeToTimeMembers : List (String × RpcValue) → GoValue → Except Fault GoValue
  | [], cur => setVal .tTime cur
  | (mname, mval) :: rest, cur =>
      if mname = "wall" ∨ mname = "ext" ∨ mname = "loc" then
        if mval.isEmpty then writeToTimeMembers rest cur
        else .error (faultNew internalErrorCode "error writing to value. cannot set value")
      else .error (faultNew internalErrorCode "error writing struct. unknown field ")

mutual

/-- `rpcValue.writeTo` — write the value into a destination slot.  `isRef`
says whether the destination pointer is a `*reflect.Value` (slice elements and
record fields during recursion) rather than a plain `*T`: the interface-kind
rejection happens before the `reflect.Value` unwrap, so only a plain
`*interface{}` destination trips it.  `canSet` models `refVal.CanSet()`
(false exactly for unexported record fields). -/
def writeTo (r : RpcValue) (isRef canSet : Bool) (t : GoType) (cur : GoValue) :
    Except Fault GoValue :=
  if r.isEmpty then .ok cur
  else if isRef = false ∧ t.isIface then
    .error (faultNew internalErrorCode "error writing value. cannot write to type 'ptr'")
  else if canSet = false then
    .error (faultNew internalErrorCode "error writing to value. cannot set value")
  else
    match r with
    | .array xs =>
        if t.isIface then
          -- generic destination: the raw `[]rpcValue` payload is stored as is
          setVal t (GoValue.raw (.array xs))
        else
          match t with
          | .tSlice elemT => do
              let elems ← writeToElems xs elemT
              -- reflect.AppendSlice(refVal, slice): the fresh elements are
              -- appended to the destination's current contents
              setVal t (.slice elemT (cur.sliceElems ++ elems))
          | _ => .error (faultNew internalErrorCode
              ("error writing value. expected type slice got '" ++ kindString t ++ "'"))
    | .strct ms =>
        match t with
        | .tRecord tfields =>
            let fields := match cur with
              | .record fs => fs
              | _ => zeroFields tfields
            match writeToMembers ms fields with
            | .error e => .error e
            | .ok fields2 => setVal t (.record fields2)
        | .tTime => writeToTimeMembers ms cur
        | _ => .error (faultNew internalErrorCode
            ("error writing struct. expected type struct got '" ++ kindString t ++ "'"))
    | prim => setVal t (rpcPayloadGo prim)

/-- The array loop: a fresh slice of zero values of the element type, each
element projected via a `*reflect.Value`; the first error aborts. -/
def writeToElems (xs : List RpcValue) (elemT : GoType) : Except Fault (List GoValue) :=
  match xs with
  | [] => .ok []
  | x :: rest => do
      let v ← writeTo x true true elemT (zeroOf elemT)
      let vs ← writeToElems rest elemT
      pure (v :: vs)

/-- The struct-member loop: look the member name up in `nameMap`, fail on an
unknown field (reporting the mapped — possibly empty — field name), else
project into the field and continue with the updated record. -/
def writeToMembers (ms : List (String × RpcValue))
    (fields : List (String × Option String × GoType × GoValue)) :
    Except Fault (List (String × Option String × GoType × GoValue)) :=
  match ms with
  | [] => .ok fields
  | (mname, mval) :: rest =>
      let fieldName := nameMapLookup fields mname
      match findField fields fieldName with
      | none => .error (faultNew internalErrorCode
          ("error writing struct. unknown field " ++ fieldName))
      | some (n, _, ty, v) => do
          let nv ← writeTo mval true (isExported n) ty v
          writeToMembers rest (setField fields n nv)

end

/-! ### Errors crossing the reader (error values of the Go code)

`eof` is `io.EOF`; `syntaxErr` is an `*xml.SyntaxError` from the underlying
`encoding/xml` decoder (the only error class `readRPC` remaps); `plain` covers
`fmt.Errorf`, `*time.ParseError` and base64 errors; `fault` is a `Fault`
value.  Where no settled statement depends on a plain error's text, the Go
message is abbreviated (noted at each site). -/

inductive GoError where
  | eof
  | syntaxErr (msg : String)
  | plain (msg : String)
  | fault (f : Fault)
deriving DecidableEq, Repr

/-! ### Tokens and the tokenizer (encoding/xml RawToken on the RPC subset)

The writer only ever emits attribute-free tags, text with the five predefined
entities plus numeric escapes, and the XML declaration, so the tokenizer
models `Decoder.RawToken` on exactly that subset: comments, directives and
attributes yield a syntax error (the code never produces them and no settled
statement feeds them).  As in Go, character data has entities decoded and
carriage returns normalised (`\r\n` and `\r` become `\n`); numeric entities
are not re-normalised. -/

inductive XmlToken where
  | startEl (name : String)
  | endEl (name : String)
  | charData (s : String)
  | procInst (target : String)
deriving DecidableEq, Repr

/-- Split at the first occurrence of `stop`, dropping it. -/
def splitAtChar (stop : Char) : List Char → Option (List Char × List Char)
  | [] => none
  | c :: rest =>
      if c = stop then some ([], rest)
      else (splitAtChar stop rest).map fun p => (c :: p.1, p.2)

theorem splitAtChar_length {stop : Char} : ∀ {cs pre post : List Char},
    splitAtChar stop cs = some (pre, post) → post.length < cs.length := by
  intro cs
  induction cs with
  | nil => intro pre post h; simp [splitAtChar] at h
  | cons c rest ih =>
      intro pre post h
      simp only [splitAtChar] at h
      split at h
      · simp only [Option.some.injEq, Prod.mk.injEq] at h
        obtain ⟨-, h2⟩ := h
        subst h2
        simp
      · match hsp : splitAtChar stop rest with
        | none => rw [hsp] at h; simp at h
        | some (p, q) =>
            rw [hsp] at h
            simp only [Option.map_some', Option.some.injEq, Prod.mk.injEq] at h
            obtain ⟨-, h2⟩ := h
            subst h2
            have := ih hsp
            simp only [List.length_cons]
            omega

/-- Split at the first occurrence of `?>`, dropping it. -/
def splitPI : List Char → Option (List Char × List Char)
  | [] => none
  | c :: rest =>
      if c = '?' ∧ rest.head? = some '>' then some ([], rest.tail)
      else (splitPI rest).map fun p => (c :: p.1, p.2)

theorem splitPI_length : ∀ {cs pre post : List Char},
    splitPI cs = some (pre, post) → post.length < cs.length := by
  intro cs
  induction cs with
  | nil => intro pre post h; simp [splitPI] at h
  | cons c rest ih =>
      intro pre post h
      simp only [splitPI] at h
      split at h
      · simp only [Option.some.injEq, Prod.mk.injEq] at h
        obtain ⟨-, h2⟩ := h
        subst h2
        simp only [List.length_cons, List.length_tail]
        omega
      · match hsp : splitPI rest with
        | none => rw [hsp] at h; simp at h
        | some (p, q) =>
            rw [hsp] at h
            simp only [Option.map_some', Option.some.injEq, Prod.mk.injEq] at h
            obtain ⟨-, h2⟩ := h
            subst h2
            have := ih hsp
            simp only [List.length_cons]
            omega

/-- A unicode scalar value usable as a character. -/
def validScalar (n : Nat) : Bool := n < 0xD800 ∨ (0xE000 ≤ n ∧ n < 0x110000)

/-- Value of a decimal entity body. -/
def decDigits (cs : List Char) : Option Nat :=
  if cs ≠ [] ∧ cs.all (·.isDigit) then
    some (cs.foldl (fun a c => 10 * a + (c.toNat - 48)) 0)
  else none

def hexDigitVal (c : Char) : Nat :=
  if c.isDigit then c.toNat - 48
  else if 'a' ≤ c ∧ c ≤ 'f' then c.toNat - 87
  else c.toNat - 55

def isHexDigit (c : Char) : Bool :=
  c.isDigit ∨ ('a' ≤ c ∧ c ≤ 'f') ∨ ('A' ≤ c ∧ c ≤ 'F')

def hexDigits (cs : List Char) : Option Nat :=
  if cs ≠ [] ∧ cs.all isHexDigit then
    some (cs.foldl (fun a c => 16 * a + hexDigitVal c) 0)
  else none

/-- Decode one character/entity reference body (the text between `&` and
`;`): a predefined name or a numeric reference. -/
def entityValue (body : List Char) : Option Char :=
  match body with
  | '#' :: 'x' :: ds => do
      let n ← hexDigits ds
      if validScalar n then some (Char.ofNat n) else none
  | '#' :: ds => do
      let n ← decDigits ds
      if validScalar n then some (Char.ofNat n) else none
  | _ =>
      if body = "lt".data then some '<'
      else if body = "gt".data then some '>'
      else if body = "amp".data then some '&'
      else if body = "apos".data then some aposChar
      else if body = "quot".data then some quoteChar
      else none

/-- Decode a run of character data: entity references and carriage-return
normalisation, as `encoding/xml` applies to text. -/
def unescapeText (cs : List Char) : Option (List Char) :=
  match cs with
  | [] => some []
  | c :: rest =>
      if c = '&' then
        match h : splitAtChar ';' rest with
        | none => none
        | some (body, rest2) => do
            let ch ← entityValue body
            let tl ← unescapeText rest2
            pure (ch :: tl)
      else if c = '\r' then
        if rest.head? = some '\n' then (unescapeText rest.tail).map (fun tl => '\n' :: tl)
        else (unescapeText rest).map (fun tl => '\n' :: tl)
      else (unescapeText rest).map (fun tl => c :: tl)
termination_by cs.length
decreasing_by
  · have := splitAtChar_length h
    simp only [List.length_cons]
    omega
  all_goals simp only [List.length_cons, List.length_tail]; omega

def syntaxEOF : GoError := .syntaxErr "XML syntax error: unexpected EOF"

/-- Name characters the tokenizer rejects inside a tag (a space would start
an attribute list, which the subset does not cover). -/
def badNameChar (c : Char) : Bool :=
  c = ' ' ∨ c = '\t' ∨ c = '\n' ∨ c = '\r' ∨ c = '<' ∨ c = '&'

/-- The tokenizer: the structural token stream of an input, paired with what
the decoder reports after the last token (EOF or a syntax error).  Line
numbers of Go's `xml.SyntaxError` messages are not carried. -/
def tokenizeChars : List Char → List XmlToken × GoError
  | [] => ([], .eof)
  | c :: rest =>
      if c = '<' then
        match hr : rest with
        | [] => ([], syntaxEOF)
        | c2 :: r2 =>
            if c2 = '/' then
              (match h : splitAtChar '>' r2 with
               | none => ([], syntaxEOF)
               | some (name, r3) =>
                   if name = [] ∨ name.any badNameChar then
                     ([], .syntaxErr "XML syntax error: invalid element name")
                   else
                     let (ts, e) := tokenizeChars r3
                     (.endEl (String.mk name) :: ts, e))
            else if c2 = '?' then
              (match h : splitPI r2 with
               | none => ([], syntaxEOF)
               | some (body, r3) =>
                   let target := body.takeWhile fun c => ¬ (c = ' ' ∨ c = '\t' ∨ c = '\n' ∨ c = '\r')
                   let (ts, e) := tokenizeChars r3
                   (.procInst (String.mk target) :: ts, e))
            else if c2 = '!' then
              -- comments and directives: never produced by the writer, outside the subset
              ([], .syntaxErr "XML syntax error: unsupported markup")
            else
              (match h : splitAtChar '>' (c2 :: r2) with
               | none => ([], syntaxEOF)
               | some (name, r3) =>
                   if name = [] ∨ name.any badNameChar then
                     ([], .syntaxErr "XML syntax error: invalid element name")
                   else if name.getLast? = some '/' then
                     -- self-closing tag: one start plus one end token
                     let nm := String.mk (name.dropLast)
                     let (ts, e) := tokenizeChars r3
                     (.startEl nm :: .endEl nm :: ts, e)
                   else
                     let (ts, e) := tokenizeChars r3
                     (.startEl (String.mk name) :: ts, e))
      else
        -- character data up to the next markup
        let run := c :: rest.takeWhile (· ≠ '<')
        let rem := rest.dropWhile (· ≠ '<')
        match unescapeText run with
        | none => ([], .syntaxErr "XML syntax error: invalid character entity")
        | some txt =>
            let (ts, e) := tokenizeChars rem
            (.charData (String.mk txt) :: ts, e)
termination_by cs => cs.length
decreasing_by
  · have := splitAtChar_length h
    simp only [List.length_cons] at this ⊢
    omega
  · have := splitPI_length h
    simp only [List.length_cons] at this ⊢
    omega
  · have := splitAtChar_length h
    simp only [List.length_cons] at this ⊢
    omega
  · have := splitAtChar_length h
    simp only [List.length_cons] at this ⊢
    omega
  · have : (rest.dropWhile (· ≠ '<')).length ≤ rest.length :=
      (List.dropWhile_sublist (· ≠ '<')).length_le
    simp only [List.length_cons]
    omega

/-! ### The token reader (reader.go) -/

/-- `xmlReader` state: the pending tokens (the one-token pushback is a cons
onto the front) and the terminal result the decoder reports once they are
exhausted. -/
structure RState where
  toks : List XmlToken
  tail : GoError
deriving DecidableEq, Repr

/-- A fresh reader over an input string. -/
def mkState (s : String) : RState :=
  let p := tokenizeChars s.data
  ⟨p.1, p.2⟩

/-- `putToken` — push a token back (at most one is ever pending). -/
def pushTok (t : XmlToken) (s : RState) : RState := ⟨t :: s.toks, s.tail⟩

/-- `trim` — drop whitespace-only character data, push anything else back.
(`strings.TrimSpace` trims unicode space; ASCII whitespace suffices for every
text the statements touch.) -/
def trimToks : List XmlToken → List XmlToken
  | .charData cd :: rest =>
      if cd.data.all Char.isWhitespace then trimToks rest else .charData cd :: rest
  | ts => ts

def trim (s : RState) : RState := ⟨trimToks s.toks, s.tail⟩

/-- Rendering of a token inside `fmt.Errorf` messages (`%#v` / `%s`),
abbreviated: no settled statement depends on these texts. -/
def tokenRepr : XmlToken → String
  | .startEl n => "StartElement " ++ n
  | .endEl n => "EndElement " ++ n
  | .charData s => "CharData " ++ s
  | .procInst t => "ProcInst " ++ t

/-- `nextText` — the next token as character data; anything else is pushed
back with an error. -/
def nextText (s : RState) : Except GoError String × RState :=
  match s.toks with
  | [] => (.error s.tail, s)
  | t :: ts =>
      match t with
      | .charData cd => (.ok cd, ⟨ts, s.tail⟩)
      | _ => (.error (.plain ("expected chardata but got '" ++ tokenRepr t ++ "'")), s)

/-- `nextStart` — trim, then the next token as a start element. -/
def nextStart (s0 : RState) : Except GoError String × RState :=
  let s := trim s0
  match s.toks with
  | [] => (.error s.tail, s)
  | t :: ts =>
      match t with
      | .startEl n => (.ok n, ⟨ts, s.tail⟩)
      | _ => (.error (.plain ("expected start element but got '" ++ tokenRepr t ++ "'")), s)

/-- `nextEnd` — trim, then the next token as an end element. -/
def nextEnd (s0 : RState) : Except GoError String × RState :=
  let s := trim s0
  match s.toks with
  | [] => (.error s.tail, s)
  | t :: ts =>
      match t with
      | .endEl n => (.ok n, ⟨ts, s.tail⟩)
      | _ => (.error (.plain ("expected end element but got '" ++ tokenRepr t ++ "'")), s)

/-- `expectStart` — a start element with the given name; a mismatched start
element is pushed back. -/
def expectStart (name : String) (s : RState) : Except GoError Unit × RState :=
  match nextStart s with
  | (.error e, s1) => (.error e, s1)
  | (.ok n, s1) =>
      if n = name then (.ok (), s1)
      else
        (.error (.plain ("parsing error. expected start element '" ++ name ++ "' but got '" ++ n ++ "'")),
         pushTok (.startEl n) s1)

/-- `expectEnd` — an end element with the given name; a mismatched end
element is pushed back. -/
def expectEnd (name : String) (s : RState) : Except GoError Unit × RState :=
  match nextEnd s with
  | (.error e, s1) => (.error e, s1)
  | (.ok n, s1) =>
      if n = name then (.ok (), s1)
      else
        (.error (.plain ("parsing error. expected end element '" ++ name ++ "' but got '" ++ n ++ "'")),
         pushTok (.endEl n) s1)

/-- `readHeader` — consume an optional leading `<?xml …?>` declaration. -/
def readHeader (s0 : RState) : Except GoError Unit × RState :=
  let s := trim s0
  match s.toks with
  | [] => (.error s.tail, s)
  | t :: ts =>
      match t with
      | .procInst tgt => if tgt = "xml" then (.ok (), ⟨ts, s.tail⟩) else (.ok (), s)
      | _ => (.ok (), s)

/-! ### Primitive conversions used by readPrimitive -/

/-- `boolDecodeMap` — the fixed four-string lookup. -/
def boolDecodeMap : String → Option Bool
  | "1" => some true
  | "true" => some true
  | "0" => some false
  | "false" => some false
  | _ => none

def digitsVal (cs : List Char) : Nat :=
  cs.foldl (fun a c => 10 * a + (c.toNat - 48)) 0

/-- `strconv.Atoi` — optional sign, decimal digits, 64-bit range check. -/
def goAtoi (s : String) : Option Int :=
  let cs := s.data
  let p : Bool × List Char :=
    match cs with
    | c :: rest =>
        if c = '-' then (true, rest) else if c = '+' then (false, rest) else (false, cs)
    | [] => (false, cs)
  if p.2 ≠ [] ∧ p.2.all (·.isDigit) then
    let v : Int := if p.1 then -(digitsVal p.2 : Int) else (digitsVal p.2 : Int)
    if -(2 ^ 63) ≤ v ∧ v < 2 ^ 63 then some v else none
  else none

/-- `strconv.ParseFloat(s, 64)` on the decimal and special forms the wire
carries.  (Hex floats, digit-group underscores and the overflow-to-infinity
error are outside the model; no settled statement involves them.) -/
def goParseFloat (s : String) : Option GoFloat :=
  let lower := s.data.map Char.toLower
  if lower = "inf".data ∨ lower = "+inf".data ∨ lower = "infinity".data ∨
      lower = "+infinity".data then
    some (.inf false)
  else if lower = "-inf".data ∨ lower = "-infinity".data then some (.inf true)
  else if lower = "nan".data ∨ lower = "+nan".data ∨ lower = "-nan".data then some .nan
  else
    if s.data = [] then none
    else
      let cs := s.data
      let p : Bool × List Char :=
        if cs.head? = some '-' then (true, cs.tail)
        else if cs.head? = some '+' then (false, cs.tail)
        else (false, cs)
      let neg := p.1
      let ip := p.2.takeWhile (·.isDigit)
      let rest1 := p.2.dropWhile (·.isDigit)
      let q : List Char × List Char :=
        if rest1.head? = some '.' then
          (rest1.tail.takeWhile (·.isDigit), rest1.tail.dropWhile (·.isDigit))
        else ([], rest1)
      let fp := q.1
      if ip.length + fp.length = 0 then none
      else
        let mant : ℚ := (digitsVal ip : ℚ) + (digitsVal fp : ℚ) / ((10 : ℚ) ^ fp.length)
        match q.2 with
        | [] => some (.finite neg mant)
        | e :: r3 =>
            if e = 'e' ∨ e = 'E' then
              let pe : Bool × List Char :=
                if r3.head? = some '-' then (true, r3.tail)
                else if r3.head? = some '+' then (false, r3.tail)
                else (false, r3)
              if pe.2 ≠ [] ∧ pe.2.all (·.isDigit) then
                  let ex := digitsVal pe.2
                  let mag := if pe.1 then mant / (10 : ℚ) ^ ex else mant * (10 : ℚ) ^ ex
                  some (.finite neg mag)
                else none
              else none

/-- Inverse of the base64 alphabet. -/
def b64Val (c : Char) : Option Nat :=
  if 'A' ≤ c ∧ c ≤ 'Z' then some (c.toNat - 65)
  else if 'a' ≤ c ∧ c ≤ 'z' then some (c.toNat - 71)
  else if c.isDigit then some (c.toNat - 48 + 52)
  else if c = '+' then some 62
  else if c = '/' then some 63
  else none

def base64DecodeGroups : List Char → Option (List Nat)
  | [] => some []
  | a :: b :: c :: d :: rest =>
      if c = '=' ∧ d = '=' ∧ rest = [] then do
        let va ← b64Val a
        let vb ← b64Val b
        pure [va * 4 + vb / 16]
      else if d = '=' ∧ rest = [] then do
        let va ← b64Val a
        let vb ← b64Val b
        let vc ← b64Val c
        pure [va * 4 + vb / 16, vb % 16 * 16 + vc / 4]
      else do
        let va ← b64Val a
        let vb ← b64Val b
        let vc ← b64Val c
        let vd ← b64Val d
        let tl ← base64DecodeGroups rest
        pure ((va * 4 + vb / 16) :: (vb % 16 * 16 + vc / 4) :: (vc % 4 * 64 + vd) :: tl)
  | _ => none

/-- `base64.StdEncoding.DecodeString` (the decoder skips newlines). -/
def base64Decode (cs : List Char) : Option (List Nat) :=
  base64DecodeGroups (cs.filter fun c => ¬ (c = '\n' ∨ c = '\r'))

/-! ### The four date formats (reader.go lines 13-21), in priority order -/

inductive DateFormat where
  | iso8601 | rfc3339 | rfc3339HyphenTZ | rfc3339NoTZ
deriving DecidableEq, Repr

/-- `dateTimeFormats` — compact ISO-8601, RFC3339, hyphenated with explicit
offset, hyphenated without zone. -/
def dateTimeFormats : List DateFormat :=
  [.iso8601, .rfc3339, .rfc3339HyphenTZ, .rfc3339NoTZ]

def parseDigits2 : List Char → Option (Nat × List Char)
  | a :: b :: rest =>
      if a.isDigit ∧ b.isDigit then some ((a.toNat - 48) * 10 + (b.toNat - 48), rest)
      else none
  | _ => none

def parseDigits4 : List Char → Option (Nat × List Char)
  | a :: b :: c :: d :: rest =>
      if a.isDigit ∧ b.isDigit ∧ c.isDigit ∧ d.isDigit then
        some ((a.toNat - 48) * 1000 + (b.toNat - 48) * 100 + (c.toNat - 48) * 10 + (d.toNat - 48), rest)
      else none
  | _ => none

def expectChar (c : Char) : List Char → Option (List Char)
  | x :: rest => if x = c then some rest else none
  | [] => none

def isLeapYear (y : Nat) : Bool := y % 4 = 0 ∧ (y % 100 ≠ 0 ∨ y % 400 = 0)

def daysIn (m y : Nat) : Nat :=
  if m = 2 then (if isLeapYear y then 29 else 28)
  else if m = 4 ∨ m = 6 ∨ m = 9 ∨ m = 11 then 30
  else 31

/-- The range checks `time.Parse` applies to the clock fields. -/
def validClock (y mo d h mi s : Nat) : Bool :=
  1 ≤ mo ∧ mo ≤ 12 ∧ 1 ≤ d ∧ d ≤ daysIn mo y ∧ h < 24 ∧ mi < 60 ∧ s < 60

/-- An optional fractional second after the seconds field (Go's layout parser
accepts it whether or not the layout mentions one); at most nine digits. -/
def parseFrac (cs : List Char) : Option (Nat × List Char) :=
  match cs with
  | c :: d :: rest =>
      if (c = '.' ∨ c = ',') ∧ d.isDigit then
        let ds := d :: rest.takeWhile (·.isDigit)
        let rem := rest.dropWhile (·.isDigit)
        if ds.length ≤ 9 then some (digitsVal ds * 10 ^ (9 - ds.length), rem)
        else none
      else some (0, cs)
  | _ => some (0, cs)

/-- The shared `YYYY-MM-DDThh:mm:ss[.frac]` core of the hyphenated formats. -/
def parseHyphenCore (cs : List Char) : Option (GoTime × List Char) := do
  let (y, r1) ← parseDigits4 cs
  let r2 ← expectChar '-' r1
  let (mo, r3) ← parseDigits2 r2
  let r4 ← expectChar '-' r3
  let (d, r5) ← parseDigits2 r4
  let r6 ← expectChar 'T' r5
  let (h, r7) ← parseDigits2 r6
  let r8 ← expectChar ':' r7
  let (mi, r9) ← parseDigits2 r8
  let r10 ← expectChar ':' r9
  let (sec, r11) ← parseDigits2 r10
  let (nano, r12) ← parseFrac r11
  if validClock y mo d h mi sec then some (⟨y, mo, d, h, mi, sec, nano, 0⟩, r12)
  else none

/-- A `±hh:mm` numeric zone; the layout parser does not range-check it. -/
def parseNumColonTZ (cs : List Char) : Option (Int × List Char) :=
  match cs with
  | sgn :: rest =>
      if sgn = '+' ∨ sgn = '-' then do
        let (hh, r1) ← parseDigits2 rest
        let r2 ← expectChar ':' r1
        let (mm, r3) ← parseDigits2 r2
        let off : Int := (hh * 60 + mm : Nat)
        some (if sgn = '-' then -off else off, r3)
      else none
  | [] => none

/-- `time.Parse` for one of the four layouts.  Layouts without a zone yield
UTC; `Z` is accepted only by the ISO-8601 zone of RFC3339.  (Go tries a strict
RFC3339 parser first and falls back to the general layout parser; the model
folds the two, which agree on these layouts.) -/
def parseDateFormat : DateFormat → String → Option GoTime
  | .iso8601, s => do
      let cs := s.data
      let (y, r1) ← parseDigits4 cs
      let (mo, r2) ← parseDigits2 r1
      let (d, r3) ← parseDigits2 r2
      let r4 ← expectChar 'T' r3
      let (h, r5) ← parseDigits2 r4
      let r6 ← expectChar ':' r5
      let (mi, r7) ← parseDigits2 r6
      let r8 ← expectChar ':' r7
      let (sec, r9) ← parseDigits2 r8
      let (nano, r10) ← parseFrac r9
      if r10 = [] ∧ validClock y mo d h mi sec then some ⟨y, mo, d, h, mi, sec, nano, 0⟩
      else none
  | .rfc3339, s => do
      let (t, rest) ← parseHyphenCore s.data
      match rest with
      | ['Z'] => some t
      | _ => do
          let (off, r2) ← parseNumColonTZ rest
          if r2 = [] then some { t with offsetMin := off } else none
  | .rfc3339HyphenTZ, s => do
      let (t, rest) ← parseHyphenCore s.data
      let (off, r2) ← parseNumColonTZ rest
      if r2 = [] then some { t with offsetMin := off } else none
  | .rfc3339NoTZ, s => do
      let (t, rest) ← parseHyphenCore s.data
      if rest = [] then some t else none

/-- The decode loop of the `dateTime.iso8601` case: the first format that
parses wins. -/
def tryDateFormats (s : String) : Option GoTime :=
  dateTimeFormats.findSome? fun f => parseDateFormat f s

/-! ### readPrimitive / readValue / readArray / readStruct -/

/-- `valueTagSet` — the tags recognised inside a `value` element. -/
def valueTagSet (n : String) : Bool :=
  n = "string" ∨ n = "int" ∨ n = "base64" ∨ n = "dateTime.iso8601" ∨ n = "double" ∨
    n = "boolean" ∨ n = "array" ∨ n = "struct" ∨ n = "i4"

/-- Never reached with the fuel the entry points supply; no proof relies on
this branch. -/
def fuelExhausted : GoError := .plain "model artifact: reader fuel exhausted"

/-- `readPrimitive` (reader.go lines 190-237): consume the wrapped tag, its
text (a missing text yields the empty string — the error is discarded), the
end tag, then convert per kind.  Unparsable boolean/int/double text yields an
`InvalidRequest` fault; base64 and dateTime failures return the library error
(base64 and time parse-error texts abbreviated). -/
def readPrimitive (st : RState) : Except GoError RpcValue × RState :=
  match nextStart st with
  | (.error e, s1) => (.error e, s1)
  | (.ok tag, s1) =>
      let p := nextText s1
      let s : String := match p.1 with | .ok txt => txt | .error _ => ""
      match expectEnd tag p.2 with
      | (.error e, s3) => (.error e, s3)
      | (.ok _, s3) =>
          if tag = "string" then (.ok (.str s), s3)
          else if tag = "boolean" then
            match boolDecodeMap s with
            | some b => (.ok (.boolean b), s3)
            | none => (.error (.fault (faultNew invalidRequestCode
                ("error writing boolean '" ++ s ++ "'"))), s3)
          else if tag = "int" ∨ tag = "i4" then
            match goAtoi s with
            | some n => (.ok (.int .iInt n), s3)
            | none => (.error (.fault (faultNew invalidRequestCode
                ("error writing int '" ++ s ++ "'"))), s3)
          else if tag = "double" then
            match goParseFloat s with
            | some f => (.ok (.double .f64 f), s3)
            | none => (.error (.fault (faultNew invalidRequestCode
                ("error writing double '" ++ s ++ "'"))), s3)
          else if tag = "base64" then
            match base64Decode s.data with
            | some bs => (.ok (.base64 bs), s3)
            | none => (.error (.plain "illegal base64 data"), s3)
          else if tag = "dateTime.iso8601" then
            match tryDateFormats s with
            | some t => (.ok (.dateTime t), s3)
            | none => (.error (.plain ("parsing time '" ++ s ++ "'")), s3)
          else (.error (.plain ("unhandled tag. '" ++ tag ++ "'")), s3)

mutual

/-- `readValue` (reader.go lines 145-187).  The fuel parameter only bounds
recursion depth for the termination checker; the entry points supply more
than any parse can use. -/
def readValue : Nat → RState → Except GoError RpcValue × RState
  | 0, st => (.error fuelExhausted, st)
  | fuel + 1, st =>
      match expectStart "value" st with
      | (.error e, s1) => (.error e, s1)
      | (.ok _, s1) =>
          match nextStart s1 with
          | (.error _, s2) =>
              -- empty value or unwrapped string
              (match nextText s2 with
               | (.error _, s3) =>
                   -- nothing readable: the target keeps its zero (nil) value
                   -- and the matching end tag is consumed
                   (match expectEnd "value" s3 with
                    | (.error e, s4) => (.error e, s4)
                    | (.ok _, s4) => (.ok RpcValue.nil, s4))
               | (.ok txt, s3) =>
                   -- implicit string; note: the end tag is NOT consumed here
                   (.ok (.str txt), s3))
          | (.ok tag, s2) =>
              if valueTagSet tag = false then
                (.error (.plain ("parsing error. expected valid rpc value element got '" ++ tag ++ "'")), s2)
              else
                let s3 := pushTok (.startEl tag) s2
                let r :=
                  if tag = "array" then readArray fuel s3
                  else if tag = "struct" then readStruct fuel s3
                  else readPrimitive s3
                match r with
                | (.error e, s4) => (.error e, s4)
                | (.ok v, s4) =>
                    match expectEnd "value" s4 with
                    | (.error e, s5) => (.error e, s5)
                    | (.ok _, s5) => (.ok v, s5)
termination_by structural fuel st => fuel

/-- `readArray` (reader.go lines 240-283). -/
def readArray : Nat → RState → Except GoError RpcValue × RState
  | 0, st => (.error fuelExhausted, st)
  | fuel + 1, st =>
      let s1 := (nextStart st).2   -- <array>; the result is ignored
      match expectStart "data" s1 with
      | (.error e, s2) => (.error e, s2)
      | (.ok _, s2) =>
          match readArrayItems fuel s2 with
          | (.error e, s3) => (.error e, s3)
          | (.ok xs, s3) =>
              match expectEnd "data" s3 with
              | (.error e, s4) => (.error e, s4)
              | (.ok _, s4) =>
                  match expectEnd "array" s4 with
                  | (.error e, s5) => (.error e, s5)
                  | (.ok _, s5) => (.ok (.array xs), s5)
termination_by structural fuel st => fuel

/-- The element loop of `readArray`: stop at the first non-start token; every
start element must be a `value`. -/
def readArrayItems : Nat → RState → Except GoError (List RpcValue) × RState
  | 0, st => (.error fuelExhausted, st)
  | fuel + 1, st =>
      match nextStart st with
      | (.error _, s1) => (.ok [], s1)
      | (.ok tag, s1) =>
          if tag ≠ "value" then
            (.error (.plain ("parsing error. invalid element '" ++ tag ++ "'")), s1)
          else
            let s2 := pushTok (.startEl tag) s1
            match readValue fuel s2 with
            | (.error e, s3) => (.error e, s3)
            | (.ok v, s3) =>
                match readArrayItems fuel s3 with
                | (.error e, s4) => (.error e, s4)
                | (.ok vs, s4) => (.ok (v :: vs), s4)
termination_by structural fuel st => fuel

/-- `readStruct` (reader.go lines 286-328). -/
def readStruct : Nat → RState → Except GoError RpcValue × RState
  | 0, st => (.error fuelExhausted, st)
  | fuel + 1, st =>
      let s1 := (nextStart st).2   -- <struct>; the result is ignored
      match readStructMembers fuel s1 with
      | (.error e, s2) => (.error e, s2)
      | (.ok ms, s2) =>
          match expectEnd "struct" s2 with
          | (.error e, s3) => (.error e, s3)
          | (.ok _, s3) => (.ok (.strct ms), s3)
termination_by structural fuel st => fuel

/-- The member loop of `readStruct`: `member` → `name` (text) → `value` →
end `member`, until no further `member` start tag. -/
def readStructMembers : Nat → RState → Except GoError (List (String × RpcValue)) × RState
  | 0, st => (.error fuelExhausted, st)
  | fuel + 1, st =>
      match expectStart "member" st with
      | (.error _, s1) => (.ok [], s1)
      | (.ok _, s1) =>
          match expectStart "name" s1 with
          | (.error e, s2) => (.error e, s2)
          | (.ok _, s2) =>
              match nextText s2 with
              | (.error e, s3) => (.error e, s3)
              | (.ok nm, s3) =>
                  match expectEnd "name" s3 with
                  | (.error e, s4) => (.error e, s4)
                  | (.ok _, s4) =>
                      match readValue fuel s4 with
                      | (.error e, s5) => (.error e, s5)
                      | (.ok v, s5) =>
                          match expectEnd "member" s5 with
                          | (.error e, s6) => (.error e, s6)
                          | (.ok _, s6) =>
                              match readStructMembers fuel s6 with
                              | (.error e, s7) => (.error e, s7)
                              | (.ok ms, s7) => (.ok ((nm, v) :: ms), s7)
termination_by structural fuel st => fuel

end

/-! ### Envelope readers and codec entry points -/

/-- The `param` loop of `readParams`: accumulated values are kept even when a
later parse step fails (the Go code appends through a pointer). -/
def readParamsAux : Nat → RState → (List RpcValue × Option GoError) × RState
  | 0, st => (([], some fuelExhausted), st)
  | fuel + 1, st =>
      match expectStart "param" st with
      | (.error _, s1) => (([], none), s1)
      | (.ok _, s1) =>
          match readValue fuel s1 with
          | (.error e, s2) => (([], some e), s2)
          | (.ok v, s2) =>
              match expectEnd "param" s2 with
              | (.error e, s3) => (([v], some e), s3)
              | (.ok _, s3) =>
                  let r := readParamsAux fuel s3
                  ((v :: r.1.1, r.1.2), r.2)
termination_by structural fuel st => fuel

/-- `readParams` (reader.go lines 116-142). -/
def readParams (fuel : Nat) (st : RState) : (List RpcValue × Option GoError) × RState :=
  match expectStart "params" st with
  | (.error e, s1) => (([], some e), s1)
  | (.ok _, s1) =>
      match readParamsAux fuel s1 with
      | ((vs, some e), s2) => ((vs, some e), s2)
      | ((vs, none), s2) =>
          match expectEnd "params" s2 with
          | (.error e, s3) => ((vs, some e), s3)
          | (.ok _, s3) => ((vs, none), s3)

/-- `readCall` (reader.go lines 65-90). -/
def readCall (fuel : Nat) (st : RState) :
    Except GoError (String × List RpcValue) × RState :=
  match readHeader st with
  | (.error e, s1) => (.error e, s1)
  | (.ok _, s1) =>
      match expectStart "methodCall" s1 with
      | (.error e, s2) => (.error e, s2)
      | (.ok _, s2) =>
          match expectStart "methodName" s2 with
          | (.error e, s3) => (.error e, s3)
          | (.ok _, s3) =>
              match nextText s3 with
              | (.error e, s4) => (.error e, s4)
              | (.ok method, s4) =>
                  match expectEnd "methodName" s4 with
                  | (.error e, s5) => (.error e, s5)
                  | (.ok _, s5) =>
                      match readParams fuel s5 with
                      | ((_, some e), s6) => (.error e, s6)
                      | ((vs, none), s6) =>
                          match expectEnd "methodCall" s6 with
                          | (.error e, s7) => (.error e, s7)
                          | (.ok _, s7) => (.ok (method, vs), s7)

/-- `readResponse` (reader.go lines 92-114): fault detection is parse-driven —
when `readParams` fails with anything but `io.EOF`, a `fault` element is
expected instead (and partially-read params are retained). -/
def readResponse (fuel : Nat) (st : RState) : Except GoError MethodResponse × RState :=
  match readHeader st with
  | (.error e, s1) => (.error e, s1)
  | (.ok _, s1) =>
      match expectStart "methodResponse" s1 with
      | (.error e, s2) => (.error e, s2)
      | (.ok _, s2) =>
          match readParams fuel s2 with
          | ((vs, some e), s3) =>
              if e = .eof then
                match expectEnd "methodResponse" s3 with
                | (.error e2, s4) => (.error e2, s4)
                | (.ok _, s4) => (.ok ⟨vs, RpcValue.nil⟩, s4)
              else
                match expectStart "fault" s3 with
                | (.error e2, s4) => (.error e2, s4)
                | (.ok _, s4) =>
                    match readValue fuel s4 with
                    | (.error e2, s5) => (.error e2, s5)
                    | (.ok fv, s5) =>
                        match expectEnd "fault" s5 with
                        | (.error e2, s6) => (.error e2, s6)
                        | (.ok _, s6) =>
                            match expectEnd "methodResponse" s6 with
                            | (.error e2, s7) => (.error e2, s7)
                            | (.ok _, s7) => (.ok ⟨vs, fv⟩, s7)
          | ((vs, none), s3) =>
              match expectEnd "methodResponse" s3 with
              | (.error e2, s4) => (.error e2, s4)
              | (.ok _, s4) => (.ok ⟨vs, RpcValue.nil⟩, s4)

/-- Fuel supplied by the entry points: ample for any terminating parse of the
token stream (every nested reader call first consumes at least one token). -/
def valueFuel (st : RState) : Nat := 2 * st.toks.length + 16

/-- `readValue` over a byte stream (the `*rpcValue` branch of `readRPC`,
before error remapping). -/
def decodeValue (s : String) : Except GoError RpcValue :=
  (readValue (valueFuel (mkState s)) (mkState s)).1

/-- `readRPC` for a `*rpcValue` target (codec.go lines 112-142): `io.EOF` is
tolerated (the partially-written target is not tracked by this mutation-free
embedding; no settled statement reads an EOF-truncated decode's value), and
an `*xml.SyntaxError` is remapped to a `MalformedInput` fault.  Every other
error — including unexpected-tag errors — is returned as is. -/
def readRPCValue (s : String) : Except GoError RpcValue :=
  match decodeValue s with
  | .ok v => .ok v
  | .error .eof => .ok RpcValue.nil
  | .error (.syntaxErr m) => .error (.fault (faultNew malformedInputCode m))
  | .error e => .error e

/-- Whether an error value is a `Fault` (the fault taxonomy) rather than a
raw parser/library error. -/
def GoError.isFault : GoError → Bool
  | .fault _ => true
  | _ => false

/-- Types of reflect kind `struct` (records and `time.Time`). -/
def isStructKindTy : GoType → Bool
  | .tRecord _ => true
  | .tTime => true
  | _ => false

/-! ### Token shape of encoder output, and well-formedness predicates -/

/-- The tokens of one primitive element (no character data when the text is
empty, as the tokenizer never produces an empty `CharData`). -/
def primTokens (tag : String) (txt : String) : List XmlToken :=
  [.startEl "value", .startEl tag] ++
    (if txt = "" then [] else [.charData txt]) ++ [.endEl tag, .endEl "value"]

mutual

/-- The token stream `Decoder.RawToken` yields on `writeValue`'s output (for
well-formed values; see `wfRpc`). -/
def valueTokens : RpcValue → List XmlToken
  | .nil => [.startEl "value", .endEl "value"]
  | .boolean b => primTokens "boolean" (boolEncodeMap b)
  | .int _ n => primTokens "int" (String.mk (intChars n))
  | .double _ f => primTokens "double" (String.mk (doubleChars f))
  | .str s => primTokens "string" s
  | .dateTime t => primTokens "dateTime.iso8601" (String.mk (formatISO8601 t))
  | .base64 bs => primTokens "base64" (String.mk (base64Chars bs))
  | .array xs =>
      [.startEl "value", .startEl "array", .startEl "data"] ++ listTokens xs ++
        [.endEl "data", .endEl "array", .endEl "value"]
  | .strct ms =>
      [.startEl "value", .startEl "struct"] ++ memberTokens ms ++
        [.endEl "struct", .endEl "value"]

def listTokens : List RpcValue → List XmlToken
  | [] => []
  | v :: vs => valueTokens v ++ listTokens vs

def memberTokens : List (String × RpcValue) → List XmlToken
  | [] => []
  | (n, v) :: ms =>
      [.startEl "member", .startEl "name", .charData n, .endEl "name"] ++
        valueTokens v ++ (.endEl "member" :: memberTokens ms)

end

/-- Text free of carriage returns (which the tokenizer would normalise). -/
def goodText (s : String) : Bool := s.data.all fun c => c ≠ '\r'

/-- A string survives the encode/decode round trip if it takes the escaped
path (every special character, including CR, is entity-escaped) or contains no
carriage return. -/
def wfStr (s : String) : Bool := needsEscape s.data ∨ goodText s

/-- A character allowed in a raw struct-member name (emitted unescaped). -/
def goodNameChar (c : Char) : Bool := c ≠ '<' ∧ c ≠ '&' ∧ c ≠ '\r'

/-- A usable member key: nonempty and markup-safe. -/
def goodKey (n : String) : Bool := n ≠ "" ∧ n.data.all goodNameChar

/-- A time value that survives the compact-format round trip: whole seconds,
UTC, a four-digit year, calendar-valid fields (as `time.Date` guarantees). -/
def wfTime (t : GoTime) : Bool :=
  t.nano = 0 ∧ t.offsetMin = 0 ∧ t.year ≤ 9999 ∧
    validClock t.year t.month t.day t.hour t.minute t.second

/-- A float value whose `%f` rendering is lossless: finite with at most six
fractional decimal digits. -/
def wfFloat : GoFloat → Bool
  | .finite _ mag => 0 ≤ mag ∧ (mag * 1000000).den = 1
  | _ => false

/-- The `int`/`strconv.Atoi` range. -/
def wfInt (n : Int) : Bool := -(2 ^ 63) ≤ n ∧ n < 2 ^ 63

/-- A well-typed byte of a `[]byte`. -/
def isByteVal : GoValue → Bool
  | .int .iU8 n => 0 ≤ n ∧ n < 256
  | _ => false

def distinctStrings : List String → Bool
  | [] => true
  | s :: rest => (rest.all fun s2 => s2 ≠ s) && distinctStrings rest

mutual

/-- Decoded-side well-formedness: the RPC values for which
`decode(encode(·))` is the identity (§8 round-trip, restricted to what the
code supports: `int`-width integers in 64-bit range, lossless finite doubles,
CR-safe strings, whole-second UTC dates, markup-safe member names). -/
def wfRpc : RpcValue → Bool
  | .nil => true
  | .boolean _ => true
  | .int w n => w == .iInt && wfInt n
  | .double w f => w == .f64 && wfFloat f
  | .dateTime t => wfTime t
  | .base64 bs => bs.all (· < 256)
  | .str s => wfStr s
  | .array xs => wfRpcList xs
  | .strct ms => wfRpcMembers ms

def wfRpcList : List RpcValue → Bool
  | [] => true
  | v :: vs => wfRpc v && wfRpcList vs

def wfRpcMembers : List (String × RpcValue) → Bool
  | [] => true
  | (n, v) :: ms => goodKey n && wfRpc v && wfRpcMembers ms

end

mutual

/-- Native-side well-formedness: the typed values for which both round-trip
identities of §8 hold (see `wfRpc`; maps, pointers, interface fields and the
lossy widths are outside). -/
def wfVal : GoType → GoValue → Bool
  | .tBool, .bool _ => true
  | .tInt .iInt, .int .iInt n => wfInt n
  | .tFloat .f64, .float .f64 f => wfFloat f
  | .tString, .str s => wfStr s
  | .tTime, .time t => wfTime t
  | .tSlice (.tInt .iU8), .slice (.tInt .iU8) xs => xs.all isByteVal
  | .tSlice e, .slice e2 xs => e.beq e2 && wfValList e xs
  | .tRecord tfs, .record fs =>
      fieldTysBeq tfs (stripVals fs) && wfFields fs &&
        distinctStrings (fs.map fieldKey) && distinctStrings (fs.map fun f => f.1)
  | _, _ => false

def wfValList (e : GoType) : List GoValue → Bool
  | [] => true
  | v :: vs => wfVal e v && wfValList e vs

def wfFields : List (String × Option String × GoType × GoValue) → Bool
  | [] => true
  | (n, tag, ty, v) :: fs =>
      goodKey n && isExported n && goodKey (tag.getD n) && wfVal ty v && wfFields fs

end

mutual

/-- Reader fuel sufficient for a value's token stream (each nested reader
call decrements the shared fuel by one). -/
def rvFuel : RpcValue → Nat
  | .array xs => 2 + rvFuelList xs
  | .strct ms => 2 + rvFuelMembers ms
  | _ => 1

def rvFuelList : List RpcValue → Nat
  | [] => 1
  | v :: vs => 1 + rvFuel v + rvFuelList vs

def rvFuelMembers : List (String × RpcValue) → Nat
  | [] => 1
  | (_, v) :: ms => 1 + rvFuel v + rvFuelMembers ms

end

/-! ### Concrete fixtures (the repository's own test inputs) -/

/-- `person{Name: "Nana", Age: 10}` of codec_test.go (fields carry `rpc`
tags `name`/`age`). -/
def personNana : GoValue :=
  .record [("Name", some "name", .tString, .str "Nana"),
           ("Age", some "age", .tInt .iInt, .int .iInt 10)]

/-- The RPC value `makeValue` produces for `personNana`. -/
def personRpc : RpcValue := .strct [("name", .str "Nana"), ("age", .int .iInt 10)]

/-! ## Theorems

First the shared helper lemmas, then one theorem per settled claim (with its
counterexample and witness where applicable). -/

theorem digitChar_isDigit {d : Nat} (h : d < 10) : (digitChar d).isDigit = true := by
  interval_cases d <;> decide

theorem natChars_ne_nil (n : Nat) : natChars n ≠ [] := by
  rw [natChars]
  split <;> simp

theorem natChars_digits (n : Nat) : (natChars n).all (·.isDigit) = true := by
  induction n using Nat.strong_induction_on with
  | _ n ih =>
      rw [natChars]
      split
      · rename_i h
        simp only [List.all_cons, List.all_nil, Bool.and_true]
        exact digitChar_isDigit h
      · rename_i h
        simp only [List.all_append, List.all_cons, List.all_nil, Bool.and_true, Bool.and_eq_true]
        exact ⟨ih (n / 10) (Nat.div_lt_self (by omega) (by omega)),
               digitChar_isDigit (Nat.mod_lt _ (by omega))⟩

theorem natChars_length_le {k : Nat} : ∀ {n : Nat}, n < 10 ^ k → 1 ≤ k →
    (natChars n).length ≤ k := by
  induction k with
  | zero => omega
  | succ k ih =>
      intro n h _
      rw [natChars]
      split
      · simp
      · rename_i hge
        simp only [List.length_append, List.length_cons, List.length_nil]
        have hk1 : 1 ≤ k := by
          by_contra hc
          have : k = 0 := by omega
          subst this
          simp at h
          omega
        have hdiv : n / 10 < 10 ^ k := by
          have : 10 ^ (k + 1) = 10 ^ k * 10 := pow_succ 10 k
          omega
        have := ih hdiv hk1
        omega

theorem trimRightZeros_structure (l : List Char) :
    ∃ z, l = trimRightZeros l ++ List.replicate z '0' ∧
      (trimRightZeros l = [] ∨ (trimRightZeros l).getLast? ≠ some '0') := by
  refine ⟨(l.reverse.takeWhile (· = '0')).length, ?_, ?_⟩
  · unfold trimRightZeros
    have hrep : (l.reverse.takeWhile (· = '0')).reverse =
        List.replicate (l.reverse.takeWhile (· = '0')).length '0' := by
      rw [List.eq_replicate_iff]
      constructor
      · simp
      · intro b hb
        have := List.mem_takeWhile_imp (List.mem_reverse.mp hb)
        simpa using this
    calc l = l.reverse.reverse := by simp
    _ = (l.reverse.dropWhile (· = '0')).reverse ++ (l.reverse.takeWhile (· = '0')).reverse := by
        rw [← List.reverse_append, List.takeWhile_append_dropWhile]
    _ = (l.reverse.dropWhile (· = '0')).reverse ++
          List.replicate (l.reverse.takeWhile (· = '0')).length '0' := by rw [hrep]
  · unfold trimRightZeros
    rcases hh : (l.reverse.dropWhile (· = '0')).head? with _ | c
    · left
      simp only [List.head?_eq_none_iff] at hh
      simp [hh]
    · right
      have hnot := List.head?_dropWhile_not (· = '0') l.reverse
      rw [hh] at hnot
      simp only [decide_eq_false_iff_not] at hnot
      rw [List.getLast?_reverse, hh]
      intro hc
      exact hnot (by injection hc)

theorem trimRightZeros_append_sep {c : Char} (hc : (c = '0') = False) (xs ys : List Char) :
    trimRightZeros (xs ++ c :: ys) = xs ++ c :: trimRightZeros ys := by
  unfold trimRightZeros
  rw [List.reverse_append, List.reverse_cons]
  rw [List.append_assoc, List.dropWhile_append]
  split
  · rename_i hemp
    have : ys.reverse.dropWhile (· = '0') = [] := by
      simpa using hemp
    simp [this, List.dropWhile_cons, hc]
  · rename_i hemp
    rw [List.reverse_append]
    have : (ys.reverse.dropWhile (· = '0')).reverse ≠ [] := by
      simpa using hemp
    simp [List.dropWhile_cons, hc]

theorem padChars6_digits (n : Nat) : (padChars 6 (natChars n)).all (·.isDigit) = true := by
  unfold padChars
  simp only [List.all_append, Bool.and_eq_true]
  constructor
  · simp only [List.all_eq_true]
    intro c hc
    rw [List.eq_of_mem_replicate hc]
    decide
  · exact natChars_digits n

theorem padChars6_length {n : Nat} (h : n < 1000000) : (padChars 6 (natChars n)).length = 6 := by
  have h10 : n < 10 ^ 6 := by
    have h6 : (10 : ℕ) ^ 6 = 1000000 := by norm_num
    omega
  have hle := natChars_length_le h10 (by norm_num)
  unfold padChars
  simp only [List.length_append, List.length_replicate]
  omega

/-- The shape of `%f`-then-trim for every finite double: the six-digit
fixed-point form loses exactly its trailing fractional zeros, except that a
lone zero is kept after the decimal point. -/
theorem doubleChars_finite_shape (neg : Bool) (mag : ℚ) :
    ∃ pre post z,
      sprintF6 (.finite neg mag) = pre ++ '.' :: (post ++ List.replicate z '0') ∧
      (post ++ List.replicate z '0').length = 6 ∧
      doubleChars (.finite neg mag) = pre ++ '.' :: (if post = [] then ['0'] else post) ∧
      (post = [] ∨ post.getLast? ≠ some '0') ∧
      post.all (·.isDigit) = true ∧
      (pre ++ '.' :: (if post = [] then ['0'] else post)).getLast? ≠ some '.' := by
  have hsp : sprintF6 (.finite neg mag) =
      ((if neg then ['-'] else []) ++ natChars ((roundHalfEven (mag * 1000000)).toNat / 1000000)) ++
        '.' :: padChars 6 (natChars ((roundHalfEven (mag * 1000000)).toNat % 1000000)) := by
    simp [sprintF6, List.append_assoc]
  set F : List Char :=
    padChars 6 (natChars ((roundHalfEven (mag * 1000000)).toNat % 1000000)) with hF
  set pre : List Char :=
    (if neg then ['-'] else []) ++ natChars ((roundHalfEven (mag * 1000000)).toNat / 1000000)
    with hpre
  obtain ⟨z, hz, hlast⟩ := trimRightZeros_structure F
  set post : List Char := trimRightZeros F with hpost
  have hFdig : F.all (·.isDigit) = true := padChars6_digits _
  have hFlen : F.length = 6 := padChars6_length (Nat.mod_lt _ (by norm_num))
  have hpostdig : post.all (·.isDigit) = true := by
    rw [hz] at hFdig
    simp only [List.all_append, Bool.and_eq_true] at hFdig
    exact hFdig.1
  have hd : trimRightZeros (sprintF6 (.finite neg mag)) = pre ++ '.' :: post := by
    rw [hsp]
    exact trimRightZeros_append_sep (by simp) pre F
  have hlastdot : ((pre ++ '.' :: post).getLast? = some '.') ↔ post = [] := by
    rcases hpe : post with _ | ⟨c, cs⟩
    · simp [List.getLast?_append]
    · constructor
      · intro h
        rw [List.getLast?_append] at h
        simp only [List.getLast?_cons_cons] at h
        rcases hsome : (c :: cs).getLast? with _ | d
        · have hs : (c :: cs).getLast?.isSome := List.getLast?_isSome.mpr (by simp)
          rw [hsome] at hs
          simp at hs
        · rw [hsome] at h
          simp only [Option.or_some, Option.some.injEq] at h
          subst h
          have hmem := List.mem_of_getLast?_eq_some hsome
          rw [hpe] at hpostdig
          rw [List.all_eq_true] at hpostdig
          have := hpostdig '.' hmem
          simp at this
      · intro h
        simp at h
  refine ⟨pre, post, z, ?_, ?_, ?_, hlast, hpostdig, ?_⟩
  · rw [hsp, ← hz]
  · rw [← hz]
    exact hFlen
  · unfold doubleChars
    rw [hd]
    by_cases hp : post = []
    · have hcond : (pre ++ '.' :: post).length = 0 ∨ (pre ++ '.' :: post).getLast? = some '.' :=
        Or.inr (hlastdot.mpr hp)
      rw [if_pos hcond, hp]
      simp
    · have hcond : ¬((pre ++ '.' :: post).length = 0 ∨ (pre ++ '.' :: post).getLast? = some '.') := by
        push_neg
        refine ⟨by simp, fun hc => hp (hlastdot.mp hc)⟩
      rw [if_neg hcond, if_neg hp]
  · by_cases hp : post = []
    · rw [if_pos hp]
      simp [List.getLast?_append]
    · rw [if_neg hp]
      intro hc
      exact hp (hlastdot.mp hc)

/-! ### C1 — round-trip identity (counterexample; amended theorem below) -/

/-- C1 counterexample: a `time.Time` with a non-zero nanosecond field maps to
a dateTime value, but the compact encoding drops the sub-second part, so
`decode(encode(toValue(v)))` differs from `toValue(v)` — the claimed
round-trip identity fails for dateTime values. -/
theorem c1_subsecond_datetime_roundtrip_fails :
    makeValue (GoValue.time ⟨2004, 1, 1, 12, 30, 10, 1, 0⟩) =
      some (.dateTime ⟨2004, 1, 1, 12, 30, 10, 1, 0⟩) ∧
    decodeValue (writeValue (.dateTime ⟨2004, 1, 1, 12, 30, 10, 1, 0⟩)) =
      .ok (.dateTime ⟨2004, 1, 1, 12, 30, 10, 0, 0⟩) ∧
    RpcValue.dateTime ⟨2004, 1, 1, 12, 30, 10, 0, 0⟩ ≠ .dateTime ⟨2004, 1, 1, 12, 30, 10, 1, 0⟩ := by
  refine ⟨by simp [makeValue], ?_, ?_⟩
  · have hw : writeValue (.dateTime ⟨2004, 1, 1, 12, 30, 10, 1, 0⟩) =
        "<value><dateTime.iso8601>20040101T12:30:10</dateTime.iso8601></value>" := by
      simp [writeValue, formatISO8601, padChars, natChars, digitChar]
    have htok : mkState "<value><dateTime.iso8601>20040101T12:30:10</dateTime.iso8601></value>" =
        ⟨[.startEl "value", .startEl "dateTime.iso8601", .charData "20040101T12:30:10",
          .endEl "dateTime.iso8601", .endEl "value"], .eof⟩ := by
      simp [mkState, tokenizeChars, splitAtChar, badNameChar, unescapeText]
    rw [hw]
    simp only [decodeValue, htok]
    rfl
  · intro h
    injection h with h2
    exact absurd h2 (by decide)

/-! ### C2 — method-response fault detection (corrected) -/

/-- C2 counterexample: the fault/params decision is `rpcValue.isEmpty` of the
fault slot, not "is a non-empty struct".  A response whose fault slot holds a
non-empty NON-struct value (reachable from the wire: any
`<fault><value><int>5</int></value></fault>` decodes to one) is emitted with
the fault branch, although its kind is not `structKind` — the claimed
struct-iff fails. -/
theorem c2_nonstruct_fault_branch :
    faultIsEmpty ⟨[], RpcValue.int .iInt 5⟩ = false ∧
    RpcValue.kind (RpcValue.int .iInt 5) ≠ ValueKind.structKind ∧
    writeResponse ⟨[], RpcValue.int .iInt 5⟩ =
      xmlHeader ++ "<methodResponse><fault><value><int>5</int></value></fault></methodResponse>" := by
  refine ⟨rfl, by simp [RpcValue.kind], ?_⟩
  have hv : writeValue (RpcValue.int .iInt 5) = "<value><int>5</int></value>" := by
    simp [writeValue, intChars, natChars, digitChar]
  simp [writeResponse, faultIsEmpty, RpcValue.isEmpty, hv, xmlHeader]

/-- C2 amended: both `readResponse` (codec.go line 100) and `writeResponse`
(writer.go line 145) branch on `rpcValue.isEmpty` of the fault slot — the
fault branch is taken iff the slot is non-empty of ANY kind, exactly one
branch is emitted, and on the responses `makeResponse` actually produces
(fault slot either the zero nil-kind value or a non-empty two-member struct)
that condition coincides with the claimed "non-empty struct-kind" test. -/
theorem c2_fault_branch_by_isEmpty :
    (∀ (arg : ResponseArg) (res : MethodResponse), makeResponse arg = some res →
        (faultIsEmpty res = false ↔
          RpcValue.kind res.fault = ValueKind.structKind ∧
            RpcValue.isEmpty res.fault = false)) ∧
    (∀ res : MethodResponse, faultIsEmpty res = false →
        writeResponse res = xmlHeader ++ "<methodResponse>" ++
          ("<fault>" ++ writeValue res.fault ++ "</fault>") ++ "</methodResponse>") ∧
    (∀ res : MethodResponse, faultIsEmpty res = true →
        writeResponse res = xmlHeader ++ "<methodResponse>" ++
          ("<params>" ++ writeParamList res.params ++ "</params>") ++ "</methodResponse>") := by
  refine ⟨?_, ?_, ?_⟩
  · intro arg res hmk
    have hC : isExported "Code" = true := by decide
    have hM : isExported "Message" = true := by decide
    cases arg with
    | fault f =>
        simp [makeResponse, faultToGo, makeValue, classifyRecord, makeMembers, hC, hM] at hmk
        rw [← hmk]
        simp [faultIsEmpty, RpcValue.isEmpty, RpcValue.kind]
    | err m =>
        simp [makeResponse, faultToGo, makeValue, classifyRecord, makeMembers, hC, hM] at hmk
        rw [← hmk]
        simp [faultIsEmpty, RpcValue.isEmpty, RpcValue.kind]
    | value v =>
        cases hmv : makeValue v with
        | none => simp [makeResponse, hmv] at hmk
        | some rv =>
            simp [makeResponse, hmv] at hmk
            rw [← hmk]
            simp [faultIsEmpty, RpcValue.isEmpty, RpcValue.kind]
  · intro res h
    simp [writeResponse, h]
  · intro res h
    simp [writeResponse, h]

/-- C2 witness: the amended theorem at the repo's own fixtures — the
`person{Name:"Nana", Age:10}` response (nil-kind fault slot, params branch)
and an `InternalError` fault response (non-empty struct slot, fault branch). -/
theorem c2_branch_witness :
    (faultIsEmpty ⟨[personRpc], RpcValue.nil⟩ = false ↔
      RpcValue.kind RpcValue.nil = ValueKind.structKind ∧
        RpcValue.isEmpty RpcValue.nil = false) ∧
    writeResponse ⟨[personRpc], RpcValue.nil⟩ =
      xmlHeader ++ "<methodResponse>" ++
        ("<params>" ++ writeParamList [personRpc] ++ "</params>") ++ "</methodResponse>" ∧
    writeResponse ⟨[], .strct [("faultCode", .int .iInt (-32603)),
        ("faultString", .str "error decoding value")]⟩ =
      xmlHeader ++ "<methodResponse>" ++
        ("<fault>" ++ writeValue (.strct [("faultCode", .int .iInt (-32603)),
          ("faultString", .str "error decoding value")]) ++ "</fault>") ++
        "</methodResponse>" :=
  ⟨c2_fault_branch_by_isEmpty.1 (.value personNana) ⟨[personRpc], RpcValue.nil⟩
      (by
        have h1 : isExported "Name" = true := by decide
        have h2 : isExported "Age" = true := by decide
        simp [makeResponse, personNana, personRpc, makeValue, classifyRecord,
          makeMembers, h1, h2]),
   c2_fault_branch_by_isEmpty.2.2 ⟨[personRpc], RpcValue.nil⟩ rfl,
   c2_fault_branch_by_isEmpty.2.1 ⟨[], .strct [("faultCode", .int .iInt (-32603)),
     ("faultString", .str "error decoding value")]⟩ rfl⟩

/-! ### C3 — dateTime decode formats (corrected) -/

/-- C3 counterexample: when no date format parses the text, decoding does NOT
succeed best-effort — the last format's parse error is returned. -/
theorem c3_unparsable_date_is_error :
    decodeValue "<value><dateTime.iso8601>hello</dateTime.iso8601></value>" =
      .error (.plain "parsing time 'hello'") := by
  have htok : mkState "<value><dateTime.iso8601>hello</dateTime.iso8601></value>" =
      ⟨[.startEl "value", .startEl "dateTime.iso8601", .charData "hello",
        .endEl "dateTime.iso8601", .endEl "value"], .eof⟩ := by
    simp [mkState, tokenizeChars, splitAtChar, badNameChar, unescapeText]
  simp only [decodeValue, htok]
  rfl

/-- C3 amended: decoding a `dateTime.iso8601` element tries the four formats
in the fixed priority order (compact ISO-8601, RFC3339, hyphenated with
explicit offset, hyphenated without zone); the first that parses determines
the value, and when none parses the decode FAILS with the parse error (the
best-effort part of the claim does not hold — `readPrimitive` returns the
loop's final error). -/
theorem c3_date_format_priority :
    (∀ (s : String) (rest : List XmlToken) (tl : GoError) (fuel : Nat),
        readValue (fuel + 1)
            ⟨.startEl "value" :: .startEl "dateTime.iso8601" :: .charData s ::
              .endEl "dateTime.iso8601" :: .endEl "value" :: rest, tl⟩ =
          (match tryDateFormats s with
           | some t => (.ok (.dateTime t), ⟨rest, tl⟩)
           | none => (.error (.plain ("parsing time '" ++ s ++ "'")),
                      ⟨.endEl "value" :: rest, tl⟩))) ∧
    (∀ s t, parseDateFormat .iso8601 s = some t → tryDateFormats s = some t) ∧
    (∀ s t, parseDateFormat .iso8601 s = none → parseDateFormat .rfc3339 s = some t →
        tryDateFormats s = some t) ∧
    (∀ s t, parseDateFormat .iso8601 s = none → parseDateFormat .rfc3339 s = none →
        parseDateFormat .rfc3339HyphenTZ s = some t → tryDateFormats s = some t) ∧
    (∀ s t, parseDateFormat .iso8601 s = none → parseDateFormat .rfc3339 s = none →
        parseDateFormat .rfc3339HyphenTZ s = none → parseDateFormat .rfc3339NoTZ s = some t →
        tryDateFormats s = some t) ∧
    (∀ s, (∀ f, parseDateFormat f s = none) → tryDateFormats s = none) := by
  refine ⟨?_, ?_, ?_, ?_, ?_, ?_⟩
  · intro s rest tl fuel
    cases h : tryDateFormats s <;>
      simp [readValue, expectStart, nextStart, nextEnd, nextText, trim, trimToks, expectEnd,
        pushTok, valueTagSet, readPrimitive, h]
  · intro s t h
    simp [tryDateFormats, dateTimeFormats, List.findSome?, h]
  · intro s t h1 h2
    simp [tryDateFormats, dateTimeFormats, List.findSome?, h1, h2]
  · intro s t h1 h2 h3
    simp [tryDateFormats, dateTimeFormats, List.findSome?, h1, h2, h3]
  · intro s t h1 h2 h3 h4
    simp [tryDateFormats, dateTimeFormats, List.findSome?, h1, h2, h3, h4]
  · intro s h
    simp [tryDateFormats, dateTimeFormats, List.findSome?, h]

theorem c3_format_priority_witness :
    parseDateFormat .iso8601 "20040101T12:30:10" = some ⟨2004, 1, 1, 12, 30, 10, 0, 0⟩ ∧
    tryDateFormats "20040101T12:30:10" = some ⟨2004, 1, 1, 12, 30, 10, 0, 0⟩ := by
  have hp : parseDateFormat .iso8601 "20040101T12:30:10" = some ⟨2004, 1, 1, 12, 30, 10, 0, 0⟩ := by
    rfl
  exact ⟨hp, c3_date_format_priority.2.1 "20040101T12:30:10" ⟨2004, 1, 1, 12, 30, 10, 0, 0⟩ hp⟩

/-! ### C4 — nil-pointer dereference in makeValue (code bug) -/

/-- C4: `makeValue` dereferences a pointer exactly once, but on a nil pointer
`reflect.Indirect` yields the zero `Value` and the following `Interface()`
call panics (modelled as `none`) — the claimed nil-kind result is never
produced.  A non-nil pointer is dereferenced once and classified normally. -/
theorem c4_nil_pointer_panics :
    makeValue (GoValue.ptr none) = none ∧
    makeValue (GoValue.ptr (some (.bool true))) = some (.boolean true) := by
  constructor <;> simp [makeValue, classifyValue]

/-! ### C5 — implicit strings (corrected) -/

/-- C5 counterexample: `<value></value>` decodes to the nil kind, not to a
string-kind value with empty payload. -/
theorem c5_empty_value_decodes_nil :
    decodeValue "<value></value>" = .ok RpcValue.nil ∧
    RpcValue.nil ≠ RpcValue.str "" := by
  constructor
  · have htok : mkState "<value></value>" = ⟨[.startEl "value", .endEl "value"], .eof⟩ := by
      simp [mkState, tokenizeChars, splitAtChar, badNameChar]
    simp only [decodeValue, htok]
    rfl
  · intro h
    cases h

/-- C5 amended: a value element whose next token is non-whitespace character
data decodes as an implicit string with that text (the matching end tag is
left unconsumed by this path); with no text, or whitespace-only text (which
`trim` discards), the value stays the nil kind. -/
theorem c5_implicit_string_decode (u : String) (rest : List XmlToken) (tl : GoError) (fuel : Nat) :
    readValue (fuel + 1) ⟨.startEl "value" :: .charData u :: .endEl "value" :: rest, tl⟩ =
      (if u.data.all Char.isWhitespace then (.ok RpcValue.nil, ⟨rest, tl⟩)
       else (.ok (.str u), ⟨.endEl "value" :: rest, tl⟩)) := by
  by_cases hw : u.data.all Char.isWhitespace
  · simp [readValue, expectStart, nextStart, nextEnd, nextText, trim, trimToks, expectEnd,
      pushTok, hw]
  · simp [readValue, expectStart, nextStart, nextEnd, nextText, trim, trimToks, expectEnd,
      pushTok, hw]

/-! ### C6 — parse errors as faults (corrected) -/

/-- C6 counterexample: an unexpected tag inside a value yields a raw
`fmt.Errorf` error from `readRPC`, not a fault. -/
theorem c6_unexpected_tag_is_raw_error :
    readRPCValue "<value><foo>1</foo></value>" =
      .error (.plain "parsing error. expected valid rpc value element got 'foo'") ∧
    GoError.isFault (.plain "parsing error. expected valid rpc value element got 'foo'") = false := by
  constructor
  · have htok : mkState "<value><foo>1</foo></value>" =
        ⟨[.startEl "value", .startEl "foo", .charData "1", .endEl "foo", .endEl "value"], .eof⟩ := by
      simp [mkState, tokenizeChars, splitAtChar, badNameChar, unescapeText]
    simp only [readRPCValue, decodeValue, htok]
    rfl
  · rfl

/-- C6 amended: `readRPC` never surfaces a raw `*xml.SyntaxError` — malformed
markup is remapped to a `MalformedInput` fault — but every other raw reader
error (unexpected tags, envelope-grammar mismatches, base64/dateTime parse
failures) is returned as is, so not all parse errors cross as faults. -/
theorem c6_no_raw_syntax_errors (s : String) :
    (∀ m, readRPCValue s ≠ .error (.syntaxErr m)) ∧
    (∀ m, decodeValue s = .error (.syntaxErr m) →
        readRPCValue s = .error (.fault (faultNew malformedInputCode m))) := by
  constructor
  · intro m
    unfold readRPCValue
    cases h : decodeValue s with
    | ok v => simp
    | error e => cases e <;> simp
  · intro m h
    unfold readRPCValue
    rw [h]

theorem c6_malformed_witness :
    decodeValue "<value" = .error (.syntaxErr "XML syntax error: unexpected EOF") ∧
    readRPCValue "<value" =
      .error (.fault (faultNew malformedInputCode "XML syntax error: unexpected EOF")) := by
  have hd : decodeValue "<value" = .error (.syntaxErr "XML syntax error: unexpected EOF") := by
    have htok : mkState "<value" = ⟨[], .syntaxErr "XML syntax error: unexpected EOF"⟩ := by
      simp [mkState, tokenizeChars, splitAtChar, syntaxEOF]
    simp only [decodeValue, htok]
    rfl
  exact ⟨hd, (c6_no_raw_syntax_errors "<value").2 "XML syntax error: unexpected EOF" hd⟩

/-! ### C7 — interface-typed destinations (corrected) -/

/-- C7 counterexample: a non-empty struct-kind value projected into an
interface-typed slot fails with `InternalError` (the struct branch has no
interface escape), and a plain `*interface{}` destination is rejected before
any unwrap for every non-empty value. -/
theorem c7_interface_rejections :
    writeTo (.strct [("a", .int .iInt 1)]) true true .tIface .nilv =
      .error ⟨-32603, "error writing struct. expected type struct got 'interface'"⟩ ∧
    writeTo (.int .iInt 5) false true .tIface .nilv =
      .error ⟨-32603, "error writing value. cannot write to type 'ptr'"⟩ := by
  constructor <;>
    simp [writeTo, RpcValue.isEmpty, GoType.isIface, kindString, faultNew,
      internalErrorCode, faultDefaultMessage]

/-- C7 amended: an interface-typed destination reached through a
`reflect.Value` (slice element or record field) receives the RPC value's raw
payload without shape checking for every non-empty, non-struct kind; a
struct-kind value fails there with `InternalError`, and a directly passed
`*interface{}` destination always fails with `InternalError`. -/
theorem c7_interface_destination :
    (∀ (r : RpcValue) (cur : GoValue), r.isEmpty = false → r.kind ≠ ValueKind.structKind →
        writeTo r true true .tIface cur = .ok (rpcPayloadGo r)) ∧
    (∀ (r : RpcValue) (cur : GoValue), r.isEmpty = false →
        writeTo r false true .tIface cur =
          .error (faultNew internalErrorCode "error writing value. cannot write to type 'ptr'")) := by
  constructor
  · intro r cur hne hk
    cases r <;>
      simp_all [writeTo, RpcValue.isEmpty, RpcValue.kind, GoType.isIface, setVal,
        goTypeOfVal, GoType.beq, rpcPayloadGo]
  · intro r cur hne
    cases r <;> simp_all [writeTo, RpcValue.isEmpty, GoType.isIface]

theorem c7_raw_payload_witness :
    writeTo (.boolean true) true true .tIface .nilv = .ok (.bool true) ∧
    writeTo (.boolean true) false true .tIface .nilv =
      .error (faultNew internalErrorCode "error writing value. cannot write to type 'ptr'") :=
  ⟨c7_interface_destination.1 (.boolean true) .nilv rfl (by simp [RpcValue.kind]),
   c7_interface_destination.2 (.boolean true) .nilv rfl⟩

/-! ### C8 — struct projection failures (corrected) -/

/-- C8 counterexample: an unknown member name fails with `InternalError`, but
the message reports the mapped field name — the empty string — and does not
name the offending member (`foo` does not occur in it). -/
theorem c8_unknown_member_error_names_nothing :
    writeTo (.strct [("foo", .int .iInt 1)]) false true
        (.tRecord [("Bar", none, .tInt .iInt)])
        (zeroOf (.tRecord [("Bar", none, .tInt .iInt)])) =
      .error ⟨-32603, "error writing struct. unknown field "⟩ ∧
    ¬ ("foo".data <:+: "error writing struct. unknown field ".data) := by
  constructor
  · simp [writeTo, RpcValue.isEmpty, GoType.isIface, writeToMembers, nameMapLookup,
      findField, fieldKey, zeroOf, zeroFields, faultNew, internalErrorCode,
      faultDefaultMessage]
  · decide

/-- C8 amended: projecting a non-empty struct-kind value into any destination
whose reflect kind is not `struct` fails with an `InternalError`-class fault;
a member name with no corresponding destination field also fails with
`InternalError`, but its message reports the looked-up field name, which is
empty for unknown members (it does not name the offending member). -/
theorem c8_struct_projection_failures :
    (∀ (ms : List (String × RpcValue)) (isRef : Bool) (t : GoType) (cur : GoValue),
        ms ≠ [] → isStructKindTy t = false →
        ∃ msg, writeTo (.strct ms) isRef true t cur = .error (Fault.mk internalErrorCode msg)) ∧
    (∀ (name : String) (v : RpcValue) (ms : List (String × RpcValue))
        (tfs : List (String × Option String × GoType)) (isRef : Bool)
        (fields : List (String × Option String × GoType × GoValue)),
        (∀ f ∈ fields, fieldKey f ≠ name) → (∀ f ∈ fields, f.1 ≠ "") →
        writeTo (.strct ((name, v) :: ms)) isRef true (.tRecord tfs) (.record fields) =
          .error (faultNew internalErrorCode "error writing struct. unknown field ")) := by
  constructor
  · intro ms isRef t cur hne hk
    have hie : (RpcValue.strct ms).isEmpty = false := by
      cases ms with
      | nil => exact absurd rfl hne
      | cons a tl => simp [RpcValue.isEmpty]
    cases t <;> cases isRef <;>
      first
      | (simp only [writeTo, hie, GoType.isIface, Bool.false_eq_true, if_false]
         exact ⟨_, rfl⟩)
      | simp [isStructKindTy] at hk
  · intro name v ms tfs isRef fields hkey hname
    have h1 : nameMapLookup fields name = "" := by
      unfold nameMapLookup
      have hn : fields.reverse.find? (fun f => fieldKey f = name) = none := by
        rw [List.find?_eq_none]
        intro f hf
        simp only [decide_eq_true_eq]
        exact hkey f (List.mem_reverse.mp hf)
      rw [hn]
    have h2 : findField fields "" = none := by
      unfold findField
      rw [List.find?_eq_none]
      intro f hf
      simp only [decide_eq_true_eq]
      exact hname f hf
    cases isRef <;>
      simp [writeTo, RpcValue.isEmpty, GoType.isIface, writeToMembers, h1, h2]

theorem c8_failure_witness :
    (∃ msg, writeTo (.strct [("a", .int .iInt 1)]) false true .tBool .nilv =
        .error (Fault.mk internalErrorCode msg)) ∧
    writeTo (.strct [("foo", .int .iInt 1)]) true true
        (.tRecord [("Bar", none, .tInt .iInt)]) (.record [("Bar", none, .tInt .iInt, .int .iInt 0)]) =
      .error (faultNew internalErrorCode "error writing struct. unknown field ") :=
  ⟨c8_struct_projection_failures.1 [("a", .int .iInt 1)] false .tBool .nilv (by simp) rfl,
   c8_struct_projection_failures.2 "foo" (.int .iInt 1) [] [("Bar", none, .tInt .iInt)] true
     [("Bar", none, .tInt .iInt, .int .iInt 0)] (by decide) (by decide)⟩

/-! ### C9 — double formatting (corrected) -/

/-- C9 counterexample: an infinite double-kind payload is emitted by `%f` as
`+Inf`, which contains no decimal point at all — the claimed always-a-point
property fails for non-finite doubles. -/
theorem c9_infinity_lacks_decimal_point :
    writeValue (.double .f64 (.inf false)) = "<value><double>+Inf</double></value>" ∧
    "+Inf".data.all (fun c => c ≠ '.') = true := by
  constructor
  · simp only [writeValue]
    decide
  · decide

/-- C9 amended: for every FINITE double payload the encoded text is the
six-digit fixed-point form with trailing fractional zeros removed, at least
one digit kept after the decimal point, and never a bare trailing point
(1.2 encodes as "1.2" and 1.0 as "1.0"); infinities and NaN print without a
decimal point. -/
theorem c9_finite_double_format :
    (∀ (neg : Bool) (mag : ℚ), ∃ pre post z,
        sprintF6 (.finite neg mag) = pre ++ '.' :: (post ++ List.replicate z '0') ∧
        (post ++ List.replicate z '0').length = 6 ∧
        doubleChars (.finite neg mag) = pre ++ '.' :: (if post = [] then ['0'] else post) ∧
        (post = [] ∨ post.getLast? ≠ some '0') ∧
        post.all (·.isDigit) = true ∧
        (pre ++ '.' :: (if post = [] then ['0'] else post)).getLast? ≠ some '.') ∧
    writeValue (.double .f64 (.finite false (6/5))) = "<value><double>1.2</double></value>" ∧
    writeValue (.double .f64 (.finite false 1)) = "<value><double>1.0</double></value>" := by
  refine ⟨doubleChars_finite_shape, ?_, ?_⟩
  · have hr : roundHalfEven ((6/5 : ℚ) * 1000000) = 1200000 := by
      have hx : (6/5 : ℚ) * 1000000 = 1200000 := by norm_num
      rw [hx]
      unfold roundHalfEven
      norm_num
    simp only [writeValue, doubleChars, sprintF6, hr]
    simp [natChars, padChars, digitChar]
    decide
  · have hr : roundHalfEven ((1 : ℚ) * 1000000) = 1000000 := by
      have hx : (1 : ℚ) * 1000000 = 1000000 := by norm_num
      rw [hx]
      unfold roundHalfEven
      norm_num
    simp only [writeValue, doubleChars, sprintF6, hr]
    simp [natChars, padChars, digitChar]
    decide

/-! ### C10 — nil values encode as an empty value element (confirmed) -/

/-- C10: every nil-kind RPC value — including those `makeValue` produces from
unrecognised native shapes such as a pointer left after the single
dereference — is written by `writeValue` as exactly `<value></value>`. -/
theorem c10_nil_encodes_empty_value :
    (∀ r : RpcValue, r.kind = ValueKind.nilKind → writeValue r = "<value></value>") ∧
    (∀ inner, makeValue (GoValue.ptr (some (.ptr inner))) = some RpcValue.nil) := by
  constructor
  · intro r hk
    cases r <;> simp [RpcValue.kind] at hk <;> simp [writeValue]
  · intro inner
    simp [makeValue, classifyValue]

theorem c10_nil_witness :
    writeValue RpcValue.nil = "<value></value>" ∧
    makeValue (GoValue.ptr (some (.ptr none))) = some RpcValue.nil :=
  ⟨c10_nil_encodes_empty_value.1 RpcValue.nil rfl, c10_nil_encodes_empty_value.2 none⟩

end XmlRpc
